import Mathlib

/-!
Verification of the VitalSync cloud-functions core
(`src/vitalsync/functions/python/main.py`) against its specification.

The Python source is shallowly embedded: pure helpers become Lean functions,
the Firestore/Garmin side effects become explicit event traces, and the
external libraries (AES-GCM, base64, UTF-8, the Garmin client, Firestore)
are modelled either concretely (where their behaviour matters to a claim)
or as parameters constrained by their documented contracts.
-/

namespace VitalSync

/-! ## Python dates (model of `datetime.date`)

The source manipulates `datetime.date` values via `date.today()`,
`timedelta` arithmetic, `weekday()` and `isoformat()`.  We model a date as a
year/month/day triple with proleptic-Gregorian ordinal arithmetic, exactly as
CPython's `datetime` module implements it (`_days_before_year` is
`y*365 + y//4 - y//100 + y//400` for `y = year - 1`). -/

structure PyDate where
  year : Nat
  month : Nat
  day : Nat
deriving DecidableEq, Repr

/-- Gregorian leap-year test, as in CPython `datetime._is_leap`. -/
def isLeap (y : Nat) : Bool :=
  decide ((y % 4 = 0 ∧ y % 100 ≠ 0) ∨ y % 400 = 0)

/-- Number of days in a month, as in CPython `datetime._days_in_month`. -/
def daysInMonth (y m : Nat) : Nat :=
  if m = 2 then (if isLeap y then 29 else 28)
  else if m = 4 ∨ m = 6 ∨ m = 9 ∨ m = 11 then 30
  else 31

/-- Days in year `y` preceding the first of month `m` (months are 1-based). -/
def daysBeforeMonth (y : Nat) : Nat → Nat
  | 0 => 0
  | 1 => 0
  | m + 2 => daysBeforeMonth y (m + 1) + daysInMonth y (m + 1)

/-- Days before January 1st of year `y`, CPython `datetime._days_before_year`. -/
def daysBeforeYear (year : Nat) : Nat :=
  (year - 1) * 365 + (year - 1) / 4 - (year - 1) / 100 + (year - 1) / 400

/-- Proleptic Gregorian ordinal: `0001-01-01` is day 1 (CPython `date.toordinal`). -/
def PyDate.toOrdinal (d : PyDate) : Nat :=
  daysBeforeYear d.year + daysBeforeMonth d.year d.month + d.day

/-- A structurally valid calendar date. -/
def PyDate.Valid (d : PyDate) : Prop :=
  1 ≤ d.year ∧ 1 ≤ d.month ∧ d.month ≤ 12 ∧ 1 ≤ d.day ∧ d.day ≤ daysInMonth d.year d.month

instance (d : PyDate) : Decidable d.Valid := by
  unfold PyDate.Valid
  infer_instance

/-- The previous calendar day (`d - timedelta(days=1)`). -/
def PyDate.pred (d : PyDate) : PyDate :=
  if 1 < d.day then ⟨d.year, d.month, d.day - 1⟩
  else if 1 < d.month then ⟨d.year, d.month - 1, daysInMonth d.year (d.month - 1)⟩
  else ⟨d.year - 1, 12, 31⟩

/-- The next calendar day (`d + timedelta(days=1)`). -/
def PyDate.succ (d : PyDate) : PyDate :=
  if d.day < daysInMonth d.year d.month then ⟨d.year, d.month, d.day + 1⟩
  else if d.month < 12 then ⟨d.year, d.month + 1, 1⟩
  else ⟨d.year + 1, 1, 1⟩

/-- Date minus `n` days (`d - timedelta(days=n)`). -/
def subDays (d : PyDate) : Nat → PyDate
  | 0 => d
  | n + 1 => subDays d.pred n

/-- Date plus `n` days (`d + timedelta(days=n)`). -/
def addDays (d : PyDate) : Nat → PyDate
  | 0 => d
  | n + 1 => addDays d.succ n

/-- Python `date.weekday()`: Monday is 0.  Ordinal 1 (`0001-01-01`) is a Monday. -/
def PyDate.weekday (d : PyDate) : Nat :=
  (d.toOrdinal + 6) % 7

/-- Zero-padded decimal of width 2. -/
def pad2 (n : Nat) : String :=
  if n < 10 then "0" ++ toString n else toString n

/-- Zero-padded decimal of width 4. -/
def pad4 (n : Nat) : String :=
  if n < 10 then "000" ++ toString n
  else if n < 100 then "00" ++ toString n
  else if n < 1000 then "0" ++ toString n
  else toString n

/-- Python `date.isoformat()`: `YYYY-MM-DD`. -/
def PyDate.isoformat (d : PyDate) : String :=
  pad4 d.year ++ "-" ++ pad2 d.month ++ "-" ++ pad2 d.day

/-! ## Python values

One inductive covers every runtime value the source feeds through
`_sanitize_for_firestore` and the request/response dictionaries: JSON-style
scalars and containers plus the opaque types the sanitizer special-cases
(bytes, datetimes, dates, arbitrary objects carrying their `str()` form).
Floats are modelled as NaN / ±Inf / an exact rational, which is all the
sanitizer distinguishes. -/

inductive PyFloat where
  | nan
  | inf
  | ninf
  | fin (q : Rat)
deriving DecidableEq, Repr

inductive PyVal where
  | vnone
  | vbool (b : Bool)
  | vint (n : Int)
  | vfloat (f : PyFloat)
  | vstr (s : String)
  | vbytes (bs : List Nat)
  | vdatetime (iso : String)
  | vdate (d : PyDate)
  | vlist (xs : List PyVal)
  | vdict (kvs : List (String × PyVal))
  | vobj (s : String)
deriving Repr

/-- Python `', '.join`. -/
def joinSep (sep : String) : List String → String
  | [] => ""
  | [x] => x
  | x :: xs => x ++ sep ++ joinSep sep xs

mutual

/-- Python `repr()` on our values (strings quoted), used by `str()` on containers. -/
def pyRepr : PyVal → String
  | .vnone => "None"
  | .vbool b => if b then "True" else "False"
  | .vint n => toString n
  | .vfloat .nan => "nan"
  | .vfloat .inf => "inf"
  | .vfloat .ninf => "-inf"
  | .vfloat (.fin q) => toString q
  | .vstr s => "'" ++ s ++ "'"
  | .vbytes bs => "b'" ++ String.mk (bs.map Char.ofNat) ++ "'"
  | .vdatetime iso => iso
  | .vdate d => d.isoformat
  | .vlist xs => "[" ++ joinSep ", " (pyReprList xs) ++ "]"
  | .vdict kvs => "\x7b" ++ joinSep ", " (pyReprKVs kvs) ++ "\x7d"
  | .vobj s => s

def pyReprList : List PyVal → List String
  | [] => []
  | x :: xs => pyRepr x :: pyReprList xs

def pyReprKVs : List (String × PyVal) → List String
  | [] => []
  | (k, v) :: kvs => ("'" ++ k ++ "': " ++ pyRepr v) :: pyReprKVs kvs

end

/-- Python `str()`: like `repr()` except that strings are returned unquoted. -/
def pyStr : PyVal → String
  | .vstr s => s
  | v => pyRepr v

/-- Models `bytes.decode('utf-8', errors='replace')`.  The exact decoded text
never matters to a claim; we map each byte to the code point of the same
value, which is the identity on ASCII payloads. -/
def bytesToStr (bs : List Nat) : String :=
  String.mk (bs.map Char.ofNat)

/-- The oversized-sequence placeholder written by the sanitizer,
Python f-string `'[⟨n⟩ items omitted]'`. -/
def listOmittedMsg (n : Nat) : String :=
  "[" ++ toString n ++ " items omitted]"

/-- Embedding of `_sanitize_for_firestore(data, max_depth)` (main.py lines
142-190).  The depth is the first argument so that the recursion is structural
on it; every recursive call in the source uses `max_depth - 1`. -/
def sanitizeForFirestore : Nat → PyVal → PyVal
  | 0, data =>
    match data with
    | .vstr s => .vstr s
    | .vint n => .vint n
    | .vbool b => .vbool b
    | .vnone => .vnone
    | .vfloat .nan => .vnone
    | .vfloat .inf => .vnone
    | .vfloat .ninf => .vnone
    | .vfloat (.fin q) => .vfloat (.fin q)
    | v => .vstr ((pyStr v).take 200)
  | d + 1, data =>
    match data with
    | .vdict kvs =>
      .vdict (kvs.map fun kv =>
        (kv.1,
          match kv.2 with
          | .vlist vs =>
            if 100 < vs.length then .vstr (listOmittedMsg vs.length)
            else sanitizeForFirestore d (.vlist vs)
          | v => sanitizeForFirestore d v))
    | .vlist xs =>
      if 100 < xs.length then .vstr (listOmittedMsg xs.length)
      else .vlist (xs.map (sanitizeForFirestore d))
    | .vbool b => .vbool b
    | .vint n => .vint n
    | .vfloat .nan => .vnone
    | .vfloat .inf => .vnone
    | .vfloat .ninf => .vnone
    | .vfloat (.fin q) => .vfloat (.fin q)
    | .vstr s => .vstr s
    | .vnone => .vnone
    | .vbytes bs => .vstr ((bytesToStr bs).take 500)
    | .vdatetime iso => .vstr iso
    | .vdate dt => .vstr dt.isoformat
    | .vobj s => .vstr ((pyStr (.vobj s)).take 500)

/-! ## Python dictionaries and `int()` conversion -/

/-- Python `d.get(k)` on a dictionary modelled as an association list
(first binding wins). -/
def pyGet (kvs : List (String × PyVal)) (k : String) : Option PyVal :=
  (kvs.find? (fun kv => kv.1 == k)).map (·.2)

/-- Python `d.get(k, default)`. -/
def pyGetD (kvs : List (String × PyVal)) (k : String) (default : PyVal) : PyVal :=
  (pyGet kvs k).getD default

/-- Strip leading and trailing whitespace, as `int(str)` does. -/
def stripWs (cs : List Char) : List Char :=
  ((cs.dropWhile Char.isWhitespace).reverse.dropWhile Char.isWhitespace).reverse

/-- Digit run with single underscores allowed between digits (Python int
literal syntax accepted by `int(str)`); the first character is checked by the
caller. -/
def digitsCore : List Char → Bool
  | [] => true
  | '_' :: c :: cs => c.isDigit && digitsCore cs
  | c :: cs => c.isDigit && digitsCore cs

/-- Numeric value of a digit string (underscores already removed). -/
def digitsToNat (cs : List Char) : Nat :=
  cs.foldl (fun n c => n * 10 + (c.toNat - 48)) 0

/-- Digit-run parse helper shared by the signed cases of `int(str)`. -/
def pyIntDigits (cs : List Char) : Option Nat :=
  match cs with
  | [] => none
  | c :: _ =>
    if c.isDigit && digitsCore cs then some (digitsToNat (cs.filter (· ≠ '_')))
    else none

/-- Python `int(s)` for a string argument: optional surrounding whitespace,
optional sign, base-10 digits with single interior underscores; `none` means
`ValueError`. -/
def pyIntOfStr (s : String) : Option Int :=
  match stripWs s.data with
  | '+' :: rest => (pyIntDigits rest).map (fun n => (n : Int))
  | '-' :: rest => (pyIntDigits rest).map (fun n => -(n : Int))
  | rest => (pyIntDigits rest).map (fun n => (n : Int))

/-- Truncation toward zero, the behaviour of Python `int(float)`. -/
def ratTruncInt (q : Rat) : Int :=
  if 0 ≤ q.num then ((q.num.toNat / q.den : Nat) : Int)
  else -(((-q.num).toNat / q.den : Nat) : Int)

/-- Python `int(x)` for the value shapes a callable request can carry;
`none` models the `ValueError` / `TypeError` pair that `garmin_backfill`
catches (`float('nan')` raises `ValueError` and is caught).  Infinite floats
are different: `int(float('inf'))` raises `OverflowError`, which the handler
does not catch; that uncaught path is `pyIntUncaught`, checked at the call
layer by `garminBackfillCall`. -/
def pyIntConv : PyVal → Option Int
  | .vbool b => some (if b then 1 else 0)
  | .vint n => some n
  | .vfloat (.fin q) => some (ratTruncInt q)
  | .vfloat _ => none
  | .vstr s => pyIntOfStr s
  | .vbytes bs => pyIntOfStr (bytesToStr bs)
  | _ => none

/-- The inputs on which Python `int(x)` raises `OverflowError` (only infinite
floats), which `except (ValueError, TypeError)` does not catch. -/
def pyIntUncaught : PyVal → Bool
  | .vfloat .inf => true
  | .vfloat .ninf => true
  | _ => false

/-! ## Credential vault (`encrypt` / `decrypt`, main.py lines 41-54)

The AES-GCM primitive, base64 and UTF-8 codecs are external libraries; the
repository's own logic is the nonce layout: `encrypt` prepends a fresh
12-byte nonce to the ciphertext before encoding, `decrypt` splits the first
12 bytes back off.  The libraries are parameters constrained, in the
round-trip theorem, by their documented contracts. -/

structure CipherLib (CT : Type) where
  aesgcmEncrypt : List Nat → List Nat → List Nat → List Nat
  aesgcmDecrypt : List Nat → List Nat → List Nat → Option (List Nat)
  b64encode : List Nat → CT
  b64decode : CT → List Nat
  utf8Encode : String → List Nat
  utf8Decode : List Nat → String

/-- Embedding of `encrypt(plaintext)` (main.py lines 41-46); the
`os.urandom(12)` nonce is passed explicitly. -/
def encrypt {CT : Type} (L : CipherLib CT) (key nonce : List Nat)
    (plaintext : String) : CT :=
  L.b64encode (nonce ++ L.aesgcmEncrypt key nonce (L.utf8Encode plaintext))

/-- Embedding of `decrypt(ciphertext)` (main.py lines 49-54); `none` models
the `InvalidTag` exception. -/
def decrypt {CT : Type} (L : CipherLib CT) (key : List Nat) (ciphertext : CT) :
    Option String :=
  (L.aesgcmDecrypt key ((L.b64decode ciphertext).take 12)
    ((L.b64decode ciphertext).drop 12)).map L.utf8Decode

/-- A concrete cipher library used to instantiate witnesses: the AEAD appends
a one-byte tag that decryption verifies (so tampered blobs fail, as needed to
exercise the decryption-failure paths), base64 is the identity on byte lists,
and UTF-8 maps characters to their code points. -/
def tagCipherLib : CipherLib (List Nat) where
  aesgcmEncrypt := fun _ _ m => m ++ [7]
  aesgcmDecrypt := fun _ _ c => if c.getLast? == some 7 then some c.dropLast else none
  b64encode := id
  b64decode := id
  utf8Encode := fun s => s.data.map Char.toNat
  utf8Decode := fun l => String.mk (l.map Char.ofNat)

/-! ## Firestore values and effect traces

Writes carry `SVal` fields: either a sanitized Python payload, the
`SERVER_TIMESTAMP` sentinel, or a nested map that may itself contain the
sentinel (as in `_save_session`).  Side-effecting functions are embedded as
pure functions that also return the ordered list of effects (`Ev`) they
perform. -/

inductive SVal where
  | py (v : PyVal)
  | serverTimestamp
  | sdict (kvs : List (String × SVal))
deriving Repr

inductive Ev where
  | setDoc (path : String) (fields : List (String × SVal)) (merge : Bool)
  | commitBatch
  | fetchActs (off : Int) (lim : Nat)
  | computeStats (uid : String)
  | saveSession (uid : String)
  | logErr (uid : String)
deriving Repr

/-! ## Backfill controller (`garmin_backfill`, main.py lines 448-549)

The Garmin client's paginated listing is a parameter
`prov : Int → Nat → Option (List Act)` taking the `(offset, limit)` pair the
source passes to `get_activities`; `none` models a raised exception, which
`_safe_call` converts to the default `[]`.  An activity is the dictionary the
provider returns. -/

abbrev Act := List (String × PyVal)

/-- Python dictionary assignment `d[k] = v`: overwrite the existing binding
or append a new one. -/
def dictSet (kvs : List (String × SVal)) (k : String) (v : SVal) :
    List (String × SVal) :=
  if kvs.any (·.1 == k) then kvs.map (fun kv => if kv.1 == k then (k, v) else kv)
  else kvs ++ [(k, v)]

/-- Document fields staged for one activity: the sanitized payload plus
`processedAt` (server timestamp) and `source`. -/
def activityFields (src : String) (kvs : List (String × PyVal)) :
    List (String × SVal) :=
  dictSet (dictSet (kvs.map fun kv => (kv.1, SVal.py kv.2))
      "processedAt" .serverTimestamp)
    "source" (.py (.vstr src))

/-- View of a sanitized activity as a dictionary; `none` models the
`clean_act[...] = ...` assignment raising on a non-dictionary, which the
per-activity `except` catches. -/
def asVdict : PyVal → Option (List (String × PyVal))
  | .vdict kvs => some kvs
  | _ => none

/-- The merge write one activity stages, if any: an empty id is skipped
(`if act_id:`), and a non-dictionary sanitization result is the
per-activity exception path (`Failed to write activity`). -/
def stagedActivityWrite (uid src : String) (act : Act) : Option Ev :=
  let actId := pyStr (pyGetD act "activityId" (.vstr ""))
  if actId = "" then none
  else
    match asVdict (sanitizeForFirestore 10 (.vdict act)) with
    | some kvs =>
      some (Ev.setDoc ("users/" ++ uid ++ "/activities/" ++ actId)
        (activityFields src kvs) true)
    | none => none

/-- One iteration of the `for act in acts` write loop: stage the activity's
merge write and commit once 450 writes are pending. -/
def pageStep (uid src : String) (st : List Ev × Nat) (act : Act) : List Ev × Nat :=
  match stagedActivityWrite uid src act with
  | none => st
  | some w =>
    if 450 ≤ st.2 + 1 then (st.1 ++ [w] ++ [Ev.commitBatch], 0)
    else (st.1 ++ [w], st.2 + 1)

/-- One page's batched activity writes (the whole `for act in acts` loop,
also reused by `_do_sync`), with the leftover batch committed at the end. -/
def pageWrites (uid src : String) (acts : List Act) : List Ev :=
  let step := acts.foldl (pageStep uid src) ([], 0)
  if 0 < step.2 then step.1 ++ [Ev.commitBatch] else step.1

/-- Whether a stored value is a nested map (only the explicit `garmin`
wrapper dictionaries are; activity payload values never are). -/
def isSdict : SVal → Bool
  | .sdict _ => true
  | _ => false

/-- The completion write staged when the backfill reaches the end of data. -/
def completeEv (uid : String) : Ev :=
  Ev.setDoc ("users/" ++ uid)
    [("garmin", .sdict
      [("backfillStatus", .py (.vstr "complete")),
       ("backfillProgress", .py (.vint 100))])] true

/-- The `garmin` progress map staged after each non-empty page. -/
def progressFields (total : Nat) : List (String × SVal) :=
  [("garmin", .sdict
    [("backfillProgress", .py (.vint (total : Int))),
     ("backfillStatus", .py (.vstr "syncing"))])]

/-- The backfill `while` loop.  `fuel` is the number of loop iterations the
guard `page < start_page + MAX_PAGES_PER_CALL` still allows (50 at entry, one
consumed per iteration since `page` increments on every non-break path).
Returns the events, `total_saved`, the final `page`, and `found_activities`. -/
def backfillLoop (prov : Int → Nat → Option (List Act)) (uid : String) :
    Nat → Int → Nat → List Ev × Nat × Int × Bool
  | 0, page, total => ([], total, page, true)
  | fuel + 1, page, total =>
    let acts := (prov (page * 100) 100).getD []
    if acts.isEmpty then ([Ev.fetchActs (page * 100) 100], total, page, false)
    else
      let ws := pageWrites uid "garmin_backfill" acts
      let total' := total + acts.length
      let progEv := Ev.setDoc ("users/" ++ uid) (progressFields total') true
      if acts.length < 100 then
        (Ev.fetchActs (page * 100) 100 :: ws ++ [progEv], total', page + 1, false)
      else
        let rest := backfillLoop prov uid fuel (page + 1) total'
        (Ev.fetchActs (page * 100) 100 :: ws ++ progEv :: rest.1,
         rest.2.1, rest.2.2.1, rest.2.2.2)

structure BackfillResult where
  status : String
  totalActivities : Nat
  hasMore : Bool
  nextPage : Option Int
deriving DecidableEq, Repr

/-- Embedding of `garmin_backfill` after authentication and client
restoration: parse `startPage` (malformed or missing values fall back to 0),
mark the status `syncing`, run the page loop, persist the session, and on end
of data run the stats aggregation and mark completion. -/
def garminBackfill (prov : Int → Nat → Option (List Act)) (uid : String)
    (reqData : List (String × PyVal)) : List Ev × BackfillResult :=
  let startPage : Int := (pyIntConv (pyGetD reqData "startPage" (.vint 0))).getD 0
  let syncingEv := Ev.setDoc ("users/" ++ uid)
    [("garmin", .sdict [("backfillStatus", .py (.vstr "syncing"))])] true
  let r := backfillLoop prov uid 50 startPage 0
  let hasMore := r.2.2.2
  let tail :=
    if hasMore then [Ev.saveSession uid]
    else [Ev.saveSession uid, Ev.computeStats uid, completeEv uid]
  (syncingEv :: r.1 ++ tail,
   { status := "ok", totalActivities := r.2.1, hasMore := hasMore,
     nextPage := if hasMore then some r.2.2.1 else none })

/-- The callable entry around the page loop: `int(req.data.get('startPage', 0))`
raises `OverflowError` on an infinite float, which the
`except (ValueError, TypeError)` clause does not catch, so the invocation
errors out (`none`); on every other value the caught/converted paths proceed
into `garminBackfill`. -/
def garminBackfillCall (prov : Int → Nat → Option (List Act)) (uid : String)
    (reqData : List (String × PyVal)) : Option (List Ev × BackfillResult) :=
  if pyIntUncaught (pyGetD reqData "startPage" (.vint 0)) then none
  else some (garminBackfill prov uid reqData)

/-! ### Trace observations used by the backfill claims -/

def isFetch : Ev → Bool
  | .fetchActs _ _ => true
  | _ => false

def isStatsEv : Ev → Bool
  | .computeStats _ => true
  | _ => false

/-- The `backfillStatus` value a write stages inside its `garmin` map, if any. -/
def statusOfEv : Ev → Option String
  | .setDoc _ fields _ =>
    (fields.find? (·.1 == "garmin")).bind fun kv =>
      match kv.2 with
      | .sdict g =>
        (g.find? (·.1 == "backfillStatus")).bind fun gkv =>
          match gkv.2 with
          | .py (.vstr s) => some s
          | _ => none
      | _ => none
  | _ => none

def isCompleteWrite (e : Ev) : Bool :=
  statusOfEv e == some "complete"

/-- The `backfillProgress` values staged along a trace, in order. -/
def progressWrites (evs : List Ev) : List Int :=
  evs.filterMap fun e =>
    match e with
    | .setDoc _ fields _ =>
      (fields.find? (·.1 == "garmin")).bind fun kv =>
        match kv.2 with
        | .sdict g =>
          (g.find? (·.1 == "backfillProgress")).bind fun gkv =>
            match gkv.2 with
            | .py (.vint n) => some n
            | _ => none
        | _ => none
    | _ => none

def fetchOffsets (evs : List Ev) : List Int :=
  evs.filterMap fun e =>
    match e with
    | .fetchActs off _ => some off
    | _ => none

/-- The writes of a trace that stage a field named `n`. -/
def eventsFor (n : String) (evs : List Ev) : List Ev :=
  evs.filter fun e =>
    match e with
    | .setDoc _ fields _ => fields.any (·.1 == n)
    | _ => false

/-! ## Sync orchestrator (`_do_sync`, main.py lines 310-385)

The nine per-metric Garmin getters are modelled as one function from metric
name and date string to an optional payload (`none` = the call raised, which
`_safe_call` turns into the default `{}`).  Firestore's acceptance of a
staged payload is a parameter `accepts`; a rejected write models the
`ref.set` exception that triggers the JSON round-trip fallback and, failing
that, drops the single field. -/

abbrev Fetcher := String → String → Option PyVal

/-- The keys of the `data_sources` dictionary, in source order. -/
def metricNames : List String :=
  ["stats", "heartRates", "sleep", "stress", "bodyComp", "hrv", "spo2",
   "respiration", "trainingReadiness"]

/-- Embedding of `json.loads(json.dumps(x, default=str))`: containers are
rebuilt, JSON-native scalars survive (Python's `json` emits NaN/Infinity
tokens and reads them back as floats), and everything else is replaced by its
`str()` form by the `default=str` hook. -/
def jsonRoundTrip : PyVal → PyVal
  | .vlist xs => .vlist (xs.attach.map fun x => jsonRoundTrip x.1)
  | .vdict kvs => .vdict (kvs.attach.map fun kv => (kv.1.1, jsonRoundTrip kv.1.2))
  | .vbytes bs => .vstr (pyStr (.vbytes bs))
  | .vdatetime iso => .vstr iso
  | .vdate d => .vstr d.isoformat
  | .vobj s => .vstr s
  | v => v
termination_by v => sizeOf v
decreasing_by
  · have := List.sizeOf_lt_of_mem x.2
    simp only [PyVal.vlist.sizeOf_spec]
    omega
  · rcases kv with ⟨⟨a, b⟩, hmem⟩
    have := List.sizeOf_lt_of_mem hmem
    simp only [PyVal.vdict.sizeOf_spec, Prod.mk.sizeOf_spec] at *
    omega

/-- One metric field's write attempt (the per-field `try` of `_do_sync`):
stage `{**base, name: sanitized}`; if the store rejects it, retry after the
JSON round-trip; if that is rejected too, drop the field. -/
def writeDailyField (accepts : String → List (String × SVal) → Bool)
    (ref : String) (base : List (String × SVal)) (name : String) (fd : PyVal) :
    List Ev :=
  let p1 := base ++ [(name, SVal.py (sanitizeForFirestore 10 fd))]
  if accepts ref p1 then [Ev.setDoc ref p1 true]
  else
    let p2 := base ++ [(name, SVal.py (sanitizeForFirestore 10 (jsonRoundTrip fd)))]
    if accepts ref p2 then [Ev.setDoc ref p2 true] else []

/-- The daily document path `users/{uid}/garminDailies/{ds}`. -/
def dailyRef (uid ds : String) : String :=
  "users/" ++ uid ++ "/garminDailies/" ++ ds

/-- The `base` dictionary of `_do_sync`:
`{'date': ds, 'processedAt': SERVER_TIMESTAMP, 'source': 'garmin_pull'}`. -/
def dailyBase (ds : String) : List (String × SVal) :=
  [("date", .py (.vstr ds)), ("processedAt", .serverTimestamp),
   ("source", .py (.vstr "garmin_pull"))]

/-- The writes `_do_sync` performs for one calendar date: each of the nine
metrics is fetched through `_safe_call` (default `{}`) and written through
its own independent `try` block. -/
def dailyWrites (f : Fetcher) (accepts : String → List (String × SVal) → Bool)
    (uid ds : String) : List Ev :=
  metricNames.flatMap fun n =>
    writeDailyField accepts (dailyRef uid ds) (dailyBase ds) n ((f n ds).getD (.vdict []))

/-- Embedding of `_do_sync(uid, client, backfill_days)`: the daily loop over
`today - i` for `i < backfill_days`, then the most recent 20 activities. -/
def doSync (f : Fetcher) (getActs : Int → Nat → Option (List Act))
    (accepts : String → List (String × SVal) → Bool)
    (uid : String) (today : PyDate) (backfillDays : Nat) : List Ev :=
  ((List.range backfillDays).flatMap fun i =>
    dailyWrites f accepts uid (subDays today i).isoformat) ++
  pageWrites uid "garmin_pull" ((getActs 0 20).getD [])

/-! ## Session restore and the scheduled sync loop
(`_restore_client` lines 61-120, `garmin_scheduled_sync` lines 420-435)

`_restore_client` raises for a disconnected user, a missing encrypted
session, or a failing decryption; the display-name fallback chain is wrapped
in its own `try` blocks and never raises, so it is omitted from the error
model.  The scheduled sync catches any per-user exception, logs it and moves
on. -/

inductive SyncErr where
  | notConnected
  | sessionExpired
  | decryptFailed
deriving DecidableEq, Repr

structure GarminCfg (CT : Type) where
  connected : Bool
  garthSession : Option CT

/-- Embedding of `_restore_client`'s failure structure: the decrypted session
JSON is returned on success. -/
def restoreClient {CT : Type} (L : CipherLib CT) (key : List Nat)
    (cfg : GarminCfg CT) : Except SyncErr String :=
  if cfg.connected = false then .error .notConnected
  else
    match cfg.garthSession with
    | none => .error .sessionExpired
    | some enc =>
      match decrypt L key enc with
      | none => .error .decryptFailed
      | some sessionJson => .ok sessionJson

/-- One connected-user row streamed by the scheduled sync: the stored config
plus that user's provider behaviour. -/
structure SyncUser (CT : Type) where
  uid : String
  cfg : GarminCfg CT
  fetcher : Fetcher
  getActs : Int → Nat → Option (List Act)

/-- Embedding of `garmin_scheduled_sync`: for every user, try
restore → sync(1 day) → persist session; a failure is logged
(`Sync failed for uid`) and the loop continues with the next user. -/
def garminScheduledSync {CT : Type} (L : CipherLib CT) (key : List Nat)
    (accepts : String → List (String × SVal) → Bool) (today : PyDate)
    (users : List (SyncUser CT)) : List Ev :=
  users.flatMap fun u =>
    match restoreClient L key u.cfg with
    | .error _ => [Ev.logErr u.uid]
    | .ok _ => doSync u.fetcher u.getActs accepts u.uid today 1 ++ [Ev.saveSession u.uid]

/-! ## Stats aggregator (`_compute_all_stats`, main.py lines 966-1076)

The paginated load of the activity collection is store interface; the model
takes the loaded activity list.  Each rollup document is produced as a
structured `StatWrite`; `computedAt` is the server-timestamp sentinel on
every write and is therefore not a field of the model. -/

mutual

/-- Python `==` on our values (used for dictionary keys in `by_type`). -/
def pyBeq : PyVal → PyVal → Bool
  | .vnone, .vnone => true
  | .vbool a, .vbool b => a == b
  | .vint a, .vint b => a == b
  | .vfloat a, .vfloat b => a == b
  | .vstr a, .vstr b => a == b
  | .vbytes a, .vbytes b => a == b
  | .vdatetime a, .vdatetime b => a == b
  | .vdate a, .vdate b => a == b
  | .vlist a, .vlist b => pyBeqList a b
  | .vdict a, .vdict b => pyBeqKVs a b
  | .vobj a, .vobj b => a == b
  | _, _ => false

def pyBeqList : List PyVal → List PyVal → Bool
  | [], [] => true
  | x :: xs, y :: ys => pyBeq x y && pyBeqList xs ys
  | _, _ => false

def pyBeqKVs : List (String × PyVal) → List (String × PyVal) → Bool
  | [], [] => true
  | (k1, v1) :: xs, (k2, v2) :: ys => k1 == k2 && pyBeq v1 v2 && pyBeqKVs xs ys
  | _, _ => false

end

/-- Python truthiness, for the `x or 0` pattern in `_aggregate`. -/
def pyTruthy : PyVal → Bool
  | .vnone => false
  | .vbool b => b
  | .vint n => n != 0
  | .vfloat (.fin q) => q != 0
  | .vfloat _ => true
  | .vstr s => s != ""
  | .vbytes bs => !bs.isEmpty
  | .vlist xs => !xs.isEmpty
  | .vdict kvs => !kvs.isEmpty
  | .vdatetime _ => true
  | .vdate _ => true
  | .vobj _ => true

/-- Numeric reading of a stored value.  Activity payloads come back from the
sanitizer, so numeric fields are ints, finite floats or `None`; anything else
reads as 0 here (Python would raise on summing it). -/
def numVal : PyVal → Rat
  | .vbool b => if b then 1 else 0
  | .vint n => (n : Rat)
  | .vfloat (.fin q) => q
  | _ => 0

/-- Python `(a.get(k1, a.get(k2, 0)) or 0)` as a number. -/
def numField (a : Act) (k1 k2 : String) : Rat :=
  let v :=
    match pyGet a k1 with
    | some v => v
    | none => pyGetD a k2 (.vint 0)
  if pyTruthy v then numVal v else 0

/-- Python `(a.get(k, 0) or 0)` as a number. -/
def numField1 (a : Act) (k : String) : Rat :=
  let v := pyGetD a k (.vint 0)
  if pyTruthy v then numVal v else 0

/-- The `by_type` key:
`act.get('activityType', {}).get('typeKey', 'other')` when `activityType` is
a dictionary, `'other'` otherwise. -/
def typeKeyOf (a : Act) : PyVal :=
  match pyGet a "activityType" with
  | some (.vdict d) => pyGetD d "typeKey" (.vstr "other")
  | _ => .vstr "other"

structure TypeAgg where
  count : Nat
  duration : Rat
  distance : Rat
  calories : Rat
deriving DecidableEq, Repr

/-- One activity's contribution to the `by_type` map (insertion-ordered, as a
Python dict). -/
def bumpType (bt : List (PyVal × TypeAgg)) (t : PyVal) (du di ca : Rat) :
    List (PyVal × TypeAgg) :=
  if bt.any (fun p => pyBeq p.1 t) then
    bt.map fun p =>
      if pyBeq p.1 t then
        (p.1, { count := p.2.count + 1, duration := p.2.duration + du,
                distance := p.2.distance + di, calories := p.2.calories + ca })
      else p
  else bt ++ [(t, { count := 1, duration := du, distance := di, calories := ca })]

structure AggStats where
  activityCount : Nat
  totalDurationSeconds : Rat
  totalDistanceMeters : Rat
  totalCalories : Rat
  byType : List (PyVal × TypeAgg)
deriving Repr

/-- Embedding of the inner `_aggregate(activities)`. -/
def aggregateActs (activities : List Act) : AggStats where
  activityCount := activities.length
  totalDurationSeconds := (activities.map fun a => numField a "duration" "movingDuration").sum
  totalDistanceMeters := (activities.map fun a => numField1 a "distance").sum
  totalCalories := (activities.map fun a => numField a "calories" "activeKilocalories").sum
  byType := activities.foldl
    (fun bt a => bumpType bt (typeKeyOf a)
      (numField a "duration" "movingDuration") (numField1 a "distance")
      (numField a "calories" "activeKilocalories"))
    []

/-- Python `(a.get('startTimeLocal') or '')[:10]`.  A missing or `None` field
gives `''`; activity start times are ISO strings. -/
def startTime10 (a : Act) : String :=
  match pyGetD a "startTimeLocal" .vnone with
  | .vstr s => s.take 10
  | _ => ""

/-- Python string `<=`, i.e. lexicographic comparison of code points. -/
def strLexLe : List Char → List Char → Bool
  | [], _ => true
  | _ :: _, [] => false
  | a :: as, b :: bs =>
    if a.toNat < b.toNat then true
    else if b.toNat < a.toNat then false
    else strLexLe as bs

def strLe (s t : String) : Bool :=
  strLexLe s.data t.data

/-- Embedding of the inner `_filter(start_date, end_date)`:
`s <= (a.get('startTimeLocal') or '')[:10] <= e` by string comparison. -/
def filterActs (acts : List Act) (s e : String) : List Act :=
  acts.filter fun a => strLe s (startTime10 a) && strLe (startTime10 a) e

structure StatWrite where
  docId : String
  periodType : String
  periodStart : String
  periodEnd : String
  agg : AggStats
deriving Repr

/-- The `while mo <= 0: mo += 12; yr -= 1` month normalisation of the
monthly-rollup loop. -/
def normMonth (yr mo : Int) : Int × Int :=
  if mo ≤ 0 then normMonth (yr - 1) (mo + 12) else (yr, mo)
termination_by (1 - mo).toNat
decreasing_by omega

/-- Python `s4.isdigit()`-guarded year of `(a.get('startTimeLocal') or '')[:4]`. -/
def yearOf (a : Act) : Option Nat :=
  let s4 :=
    (match pyGetD a "startTimeLocal" .vnone with
     | .vstr s => s.take 4
     | _ => "")
  if s4 ≠ "" ∧ s4.data.all Char.isDigit then some (digitsToNat s4.data) else none

/-- The year set `{today.year} ∪ {int(yr_str) | 4-digit prefixes}` built by
the yearly-rollup loop. -/
def yearsSet (today : PyDate) (acts : List Act) : Finset ℕ :=
  acts.foldl
    (fun s a =>
      match yearOf a with
      | some y => insert y s
      | none => s)
    {today.year}

/-- Embedding of `_compute_all_stats(uid)` as the ordered list of rollup
documents it stages: 52 trailing weeks, then 24 trailing months, then one
document per year (sorted). -/
def computeAllStats (today : PyDate) (acts : List Act) : List StatWrite :=
  let cws := subDays today today.weekday
  let weekly := (List.range 52).map fun w =>
    let ws := subDays cws (7 * w)
    let we := addDays ws 6
    { docId := "week_" ++ ws.isoformat, periodType := "week",
      periodStart := ws.isoformat, periodEnd := we.isoformat,
      agg := aggregateActs (filterActs acts ws.isoformat we.isoformat) : StatWrite }
  let monthly := (List.range 24).map fun (m : Nat) =>
    let p := normMonth (today.year : Int) ((today.month : Int) - (m : Int))
    let ms : PyDate := ⟨p.1.toNat, p.2.toNat, 1⟩
    let me :=
      if p.2 = 12 then PyDate.pred ⟨p.1.toNat + 1, 1, 1⟩
      else PyDate.pred ⟨p.1.toNat, p.2.toNat + 1, 1⟩
    { docId := "month_" ++ ms.isoformat, periodType := "month",
      periodStart := ms.isoformat, periodEnd := me.isoformat,
      agg := aggregateActs (filterActs acts ms.isoformat me.isoformat) : StatWrite }
  let yearly := ((yearsSet today acts).sort (· ≤ ·)).map fun y =>
    let ys : PyDate := ⟨y, 1, 1⟩
    let ye : PyDate := ⟨y, 12, 31⟩
    { docId := "year_" ++ toString y, periodType := "year",
      periodStart := ys.isoformat, periodEnd := ye.isoformat,
      agg := aggregateActs (filterActs acts ys.isoformat ye.isoformat) : StatWrite }
  weekly ++ monthly ++ yearly

/-! ### Rollup store (for idempotence)

Every `_write_stat` stages the full field set of its document under a fixed
id with merge semantics, so at the store level a stat write replaces the
document's content. -/

abbrev StatsStore := String → Option StatWrite

def applyStat (st : StatsStore) (w : StatWrite) : StatsStore :=
  fun id => if id = w.docId then some w else st id

def applyStats (ws : List StatWrite) (st : StatsStore) : StatsStore :=
  ws.foldl applyStat st

/-! ## Concrete fixtures used by witnesses and counterexamples -/

/-- A provider with no activities at all. -/
def provEmpty : Int → Nat → Option (List Act) := fun _ _ => some []

/-- The day-window request of the spec's backfill example:
`daysBack = 200`, `startOffset = 0`, no `startPage`. -/
def dayWindowReq : List (String × PyVal) :=
  [("daysBack", .vint 200), ("startOffset", .vint 0)]

/-- `n` distinct activities with integer ids starting at `base`. -/
def mkActs (base n : Nat) : List Act :=
  (List.range n).map fun i => [("activityId", PyVal.vint (base + i))]

/-- A provider holding exactly 150 activities: a full page of 100 and then a
page of 50. -/
def prov150 : Int → Nat → Option (List Act) := fun off _ =>
  if off = 0 then some (mkActs 0 100)
  else if off = 100 then some (mkActs 100 50)
  else some []

/-- The spec's page-cursor example: pages of 100, 100 and 37 activities. -/
def prov3 : Int → Nat → Option (List Act) := fun off _ =>
  if off = 0 then some (mkActs 0 100)
  else if off = 100 then some (mkActs 100 100)
  else if off = 200 then some (mkActs 200 37)
  else some []

/-- A Garmin client whose heart-rate-variability getter raises and whose
other getters return a small payload. -/
def fetcherHrvFails : Fetcher := fun name ds =>
  if name = "hrv" then none else some (.vdict [("value", .vint 42), ("date", .vstr ds)])

/-- A store that accepts every staged payload. -/
def acceptAll : String → List (String × SVal) → Bool := fun _ _ => true

def skey : List Nat := [1]

def nonceA : List Nat := [0, 0, 0, 0, 0, 0, 0, 0, 0, 0, 0, 0]

/-- Three connected users for the scheduled sync: the second one's stored
session blob fails authentication (its tag byte is wrong), the other two
decrypt fine. -/
def user1 : SyncUser (List Nat) where
  uid := "alice"
  cfg := { connected := true, garthSession := some (encrypt tagCipherLib skey nonceA "s1") }
  fetcher := fun _ _ => some (.vdict [])
  getActs := provEmpty

def user2 : SyncUser (List Nat) where
  uid := "bob"
  cfg := { connected := true, garthSession := some [1, 2, 3] }
  fetcher := fun _ _ => some (.vdict [])
  getActs := provEmpty

def user3 : SyncUser (List Nat) where
  uid := "carol"
  cfg := { connected := true, garthSession := some (encrypt tagCipherLib skey nonceA "s3") }
  fetcher := fun _ _ => some (.vdict [])
  getActs := provEmpty

/-- A concrete current date for witnesses. -/
def d0 : PyDate := ⟨2026, 10, 12⟩

/-- A small activity log for the stats witness: one 2024 activity. -/
def actsW : List Act :=
  [[("activityId", PyVal.vint 1),
    ("startTimeLocal", PyVal.vstr "2024-05-01 10:00:00"),
    ("duration", PyVal.vint 3600),
    ("distance", PyVal.vint 10000),
    ("calories", PyVal.vint 500),
    ("activityType", PyVal.vdict [("typeKey", PyVal.vstr "running")])]]

/-! # Theorems -/

/-! ## C7: sanitizer sequence bound -/

/-- C7 — For every sequence passed to the sanitizer (at any depth the
recursion has not yet exhausted, in particular at the default depth 10 used
by every caller): a list longer than 100 elements is replaced by the
placeholder string, which contains the decimal length as a substring, and a
list of 100 or fewer elements stays a list with each element sanitized at the
decremented depth. -/
theorem sanitize_list_bound (xs : List PyVal) (d : Nat) :
    (sanitizeForFirestore (d + 1) (.vlist xs)
      = if 100 < xs.length then .vstr (listOmittedMsg xs.length)
        else .vlist (xs.map (sanitizeForFirestore d)))
    ∧ List.IsInfix (toString xs.length).data (listOmittedMsg xs.length).data := by
  refine ⟨rfl, ⟨"[".data, " items omitted]".data, ?_⟩⟩
  simp [listOmittedMsg]

/-! ## C5: credential-vault round trip -/

/-- C5 — With the encryption key configured, `decrypt(encrypt(P)) = P` for
every plaintext `P`: `encrypt` prepends the fresh 12-byte nonce, `decrypt`
splits it back off, and the round trip recovers the plaintext.  The AES-GCM,
base64 and UTF-8 libraries enter through their documented contracts
(`hb64`, `haead`, `hutf8`); `hnonce` is the length of `os.urandom(12)`. -/
theorem decrypt_encrypt_roundtrip {CT : Type} (L : CipherLib CT)
    (key nonce : List Nat) (pt : String)
    (hb64 : ∀ x, L.b64decode (L.b64encode x) = x)
    (haead : ∀ k n m, L.aesgcmDecrypt k n (L.aesgcmEncrypt k n m) = some m)
    (hutf8 : ∀ s, L.utf8Decode (L.utf8Encode s) = s)
    (hnonce : nonce.length = 12) :
    decrypt L key (encrypt L key nonce pt) = some pt := by
  unfold decrypt encrypt
  rw [hb64]
  rw [show (12 : Nat) = nonce.length from hnonce.symm]
  rw [List.take_left, List.drop_left, haead, Option.map_some']
  rw [hutf8]


/-- Witness for C5 at a concrete key, nonce and plaintext, with the
tag-checking cipher library discharging the three library contracts. -/
theorem decrypt_encrypt_roundtrip_witness :
    decrypt tagCipherLib [9, 9] (encrypt tagCipherLib [9, 9]
      [0, 1, 2, 3, 4, 5, 6, 7, 8, 9, 10, 11] "garth-session") = some "garth-session" := by
  apply decrypt_encrypt_roundtrip tagCipherLib [9, 9]
    [0, 1, 2, 3, 4, 5, 6, 7, 8, 9, 10, 11] "garth-session"
  · intro x
    rfl
  · intro k n m
    simp [tagCipherLib]
  · intro s
    cases s
    simp [tagCipherLib, List.map_map, Function.comp_def, Char.ofNat_toNat]
  · decide

/-! ## C9: stats aggregation idempotence -/

theorem applyStats_lookup (L : List StatWrite) (st : StatsStore) (id : String) :
    applyStats L st id
      = match L.reverse.find? (fun w => w.docId == id) with
        | some w => some w
        | none => st id := by
  induction L generalizing st with
  | nil => rfl
  | cons w L ih =>
    show applyStats L (applyStat st w) id = _
    rw [ih]
    rw [List.reverse_cons, List.find?_append]
    cases h : L.reverse.find? (fun w => w.docId == id) with
    | some w' => simp
    | none =>
      simp only [Option.none_orElse]
      show applyStat st w id = _
      unfold applyStat
      by_cases hw : w.docId = id
      · rw [List.find?_cons_of_pos _ (by simp [hw])]
        simp [hw]
      · rw [List.find?_cons_of_neg _ (by simp [hw]), List.find?_nil]
        have hne : ¬ id = w.docId := fun h => hw h.symm
        simp [hne]

theorem applyStats_self_idem (L : List StatWrite) (st : StatsStore) :
    applyStats L (applyStats L st) = applyStats L st := by
  funext id
  rw [applyStats_lookup, applyStats_lookup]
  cases h : L.reverse.find? (fun w => w.docId == id) with
  | some w => rfl
  | none => rfl

/-- C9 — Stats aggregation is idempotent: recomputing all rollups a second
time from the same activity log on the same current date stages the same
rollup document for every period key (`computedAt` is the server-timestamp
sentinel on both runs and is not part of the document model), so applying the
second run to the store after the first changes nothing. -/
theorem computeAllStats_idempotent (today : PyDate) (acts : List Act)
    (st : StatsStore) :
    applyStats (computeAllStats today acts)
        (applyStats (computeAllStats today acts) st)
      = applyStats (computeAllStats today acts) st :=
  applyStats_self_idem (computeAllStats today acts) st

/-! ## C1 and C10: backfill request handling -/

theorem pyGet_cons_ne (d : List (String × PyVal)) (k k' : String) (v : PyVal)
    (h : (k' == k) = false) : pyGet ((k', v) :: d) k = pyGet d k := by
  unfold pyGet
  rw [List.find?_cons_of_neg]
  simp [h]

/-- The backfill response and trace depend on the request only through the
parsed `startPage`. -/
theorem garminBackfill_eq_of_startPage (prov : Int → Nat → Option (List Act))
    (uid : String) (d1 d2 : List (String × PyVal))
    (h : (pyIntConv (pyGetD d1 "startPage" (.vint 0))).getD 0
        = (pyIntConv (pyGetD d2 "startPage" (.vint 0))).getD 0) :
    garminBackfill prov uid d1 = garminBackfill prov uid d2 := by
  unfold garminBackfill
  rw [h]

/-- C1 (amended) — `garmin_backfill` implements only the page-cursor mode:
`daysBack` and `startOffset` in the request are never read, so supplying them
changes neither the response nor a single write; the invocation proceeds in
page-cursor mode from `startPage` (default 0). -/
theorem garminBackfill_ignores_day_window (prov : Int → Nat → Option (List Act))
    (uid : String) (data : List (String × PyVal)) (v w : PyVal) :
    garminBackfill prov uid (("daysBack", v) :: ("startOffset", w) :: data)
      = garminBackfill prov uid data := by
  apply garminBackfill_eq_of_startPage
  rw [pyGetD, pyGet_cons_ne _ _ _ _ (by decide), pyGet_cons_ne _ _ _ _ (by decide)]
  rfl

/-- C1 (counterexample) — the claimed day-window mode predicts that the
first invocation with `daysBack = 200`, `startOffset = 0` processes days
`[0, 60)`, writes `backfillProgress = min(95, round(60/200*100)) = 30` and
returns `hasMore = true` with `nextOffset = 60`.  On the code, that request
runs page-cursor mode: with no activity pages it returns `hasMore = false`,
no next cursor, and its only progress write is the completion write of 100. -/
theorem garminBackfill_day_window_refuted :
    (garminBackfill provEmpty "u1" dayWindowReq).2.hasMore = false
    ∧ (garminBackfill provEmpty "u1" dayWindowReq).2.nextPage = none
    ∧ progressWrites (garminBackfill provEmpty "u1" dayWindowReq).1 = [100] := by
  refine ⟨rfl, rfl, rfl⟩

/-- C10 (amended) — A missing `startPage`, or one whose `int()` conversion
fails with the caught `ValueError` / `TypeError` pair, is silently treated as
0: the call raises nothing, its result is exactly the page-0 run, and the
response reports status `ok`.  Infinite floats are excluded: there `int()`
raises the uncaught `OverflowError` (see the counterexample). -/
theorem garminBackfill_startPage_malformed (prov : Int → Nat → Option (List Act))
    (uid : String) (data : List (String × PyVal))
    (h : pyGet data "startPage" = none
      ∨ ∃ v, pyGet data "startPage" = some v ∧ pyIntConv v = none
          ∧ pyIntUncaught v = false) :
    garminBackfillCall prov uid data
        = some (garminBackfill prov uid (("startPage", PyVal.vint 0) :: data))
    ∧ (garminBackfill prov uid data).2.status = "ok" := by
  have hg : garminBackfill prov uid data
      = garminBackfill prov uid (("startPage", PyVal.vint 0) :: data) := by
    apply garminBackfill_eq_of_startPage
    have h2 : pyGetD (("startPage", PyVal.vint 0) :: data) "startPage" (.vint 0)
        = PyVal.vint 0 := by
      simp [pyGetD, pyGet]
    rw [h2]
    rcases h with h | ⟨v, hv, hc, _⟩
    · rw [pyGetD, h]
      rfl
    · rw [pyGetD, hv]
      simp only [Option.getD_some]
      rw [hc]
      rfl
  have hu : pyIntUncaught (pyGetD data "startPage" (.vint 0)) = false := by
    rcases h with h | ⟨v, hv, _, hvu⟩
    · rw [pyGetD, h]
      rfl
    · rw [pyGetD, hv]
      simpa using hvu
  constructor
  · unfold garminBackfillCall
    rw [hu, hg]
    rfl
  · unfold garminBackfill
    rfl

/-- Witness for C10: `startPage = "abc"` fails `int()` with a caught
`ValueError`, yet the call succeeds, equals the page-0 run and reports `ok`. -/
theorem garminBackfill_startPage_malformed_witness :
    garminBackfillCall provEmpty "u3" [("startPage", PyVal.vstr "abc")]
        = some (garminBackfill provEmpty "u3"
            [("startPage", PyVal.vint 0), ("startPage", PyVal.vstr "abc")])
    ∧ (garminBackfill provEmpty "u3" [("startPage", PyVal.vstr "abc")]).2.status = "ok" :=
  garminBackfill_startPage_malformed provEmpty "u3" [("startPage", PyVal.vstr "abc")]
    (Or.inr ⟨PyVal.vstr "abc", rfl, by decide, rfl⟩)

/-- C10 refuted at `startPage = Infinity` (reachable: `json.loads` accepts the
`Infinity` token): `int(float('inf'))` raises `OverflowError`, which
`except (ValueError, TypeError)` does not catch, so the request errors out
instead of being silently treated as page 0. -/
theorem garminBackfill_startPage_infinity :
    pyIntUncaught (PyVal.vfloat PyFloat.inf) = true
    ∧ garminBackfillCall provEmpty "u3" [("startPage", PyVal.vfloat PyFloat.inf)]
        = none :=
  ⟨rfl, rfl⟩

/-! ## C2: the backfill-progress range invariant -/

set_option maxRecDepth 40000 in
/-- C2 (code bug) — the stored `backfillProgress` is supposed to stay within
0–100, but the page-cursor loop writes the running count of saved activities
into it: with 150 activities (pages of 100 and 50) the staged progress values
of one invocation are 100, then 150, then the completion write of 100.  The
value 150 violates the 0–100 range. -/
theorem garminBackfill_progress_exceeds_100 :
    progressWrites (garminBackfill prov150 "u2" []).1 = [100, 150, 100]
    ∧ ¬ ((150 : Int) ≤ 100) := by
  refine ⟨rfl, by decide⟩

/-! ## C4: per-metric fault isolation in `_do_sync` -/

theorem filter_flatMap {α β : Type} (l : List α) (g : α → List β) (p : β → Bool) :
    (l.flatMap g).filter p = l.flatMap fun x => (g x).filter p := by
  induction l with
  | nil => rfl
  | cons x l ih => simp [List.flatMap_cons, List.filter_append, ih]

theorem flatMap_congr_mem {α β : Type} {l : List α} {g g' : α → List β}
    (h : ∀ x ∈ l, g x = g' x) : l.flatMap g = l.flatMap g' := by
  induction l with
  | nil => rfl
  | cons x l ih =>
    rw [List.flatMap_cons, List.flatMap_cons, h x (by simp),
      ih fun x hx => h x (by simp [hx])]

/-- A metric write only carries its own field key (besides the three base
keys), so filtering a daily trace by a metric name isolates that metric's
write attempt. -/
theorem eventsFor_writeDailyField (accepts : String → List (String × SVal) → Bool)
    (ref ds n n' : String) (v : PyVal)
    (hd : ("date" == n) = false) (hp : ("processedAt" == n) = false)
    (hs : ("source" == n) = false) :
    eventsFor n (writeDailyField accepts ref (dailyBase ds) n' v)
      = if n' == n then writeDailyField accepts ref (dailyBase ds) n' v
        else [] := by
  unfold writeDailyField
  by_cases h1 : accepts ref (dailyBase ds ++ [(n', SVal.py (sanitizeForFirestore 10 v))]) = true
  · rw [if_pos h1]
    cases hnn : n' == n <;> simp [eventsFor, dailyBase, hd, hp, hs, hnn]
  · rw [if_neg h1]
    by_cases h2 : accepts ref
        (dailyBase ds ++ [(n', SVal.py (sanitizeForFirestore 10 (jsonRoundTrip v)))]) = true
    · rw [if_pos h2]
      cases hnn : n' == n <;> simp [eventsFor, dailyBase, hd, hp, hs, hnn]
    · rw [if_neg h2]
      cases hnn : n' == n <;> simp [eventsFor, hnn]

/-- C4 — No single metric's failure blocks its sibling fields: for any date
of a sync run, any metric `n` whose own staged payload the store accepts has
its merge write (with `n`'s own fetched-and-sanitized value) in the trace,
whatever the other eight fetches do; and the events staging metric `n` are a
function of `n`'s own fetch alone — replacing any other metric's fetcher
(for example a heart-rate-variability getter that raises) leaves them
unchanged. -/
theorem daily_metric_isolation (f : Fetcher)
    (accepts : String → List (String × SVal) → Bool) (uid ds n : String)
    (hn : n ∈ metricNames)
    (hacc : accepts (dailyRef uid ds)
      (dailyBase ds
        ++ [(n, .py (sanitizeForFirestore 10 ((f n ds).getD (.vdict []))))]) = true) :
    Ev.setDoc (dailyRef uid ds)
        (dailyBase ds
          ++ [(n, .py (sanitizeForFirestore 10 ((f n ds).getD (.vdict []))))]) true
      ∈ dailyWrites f accepts uid ds
    ∧ ∀ f' : Fetcher, f' n ds = f n ds →
        eventsFor n (dailyWrites f' accepts uid ds)
          = eventsFor n (dailyWrites f accepts uid ds) := by
  have hkeys : ("date" == n) = false ∧ ("processedAt" == n) = false
      ∧ ("source" == n) = false := by
    simp only [metricNames] at hn
    fin_cases hn <;> exact ⟨by decide, by decide, by decide⟩
  constructor
  · apply List.mem_flatMap.mpr
    refine ⟨n, hn, ?_⟩
    simp only [writeDailyField]
    rw [hacc]
    simp
  · intro f' hf'
    unfold dailyWrites eventsFor
    rw [filter_flatMap, filter_flatMap]
    apply flatMap_congr_mem
    intro n' hn'
    have e1 := eventsFor_writeDailyField accepts (dailyRef uid ds) ds n n'
      ((f' n' ds).getD (.vdict [])) hkeys.1 hkeys.2.1 hkeys.2.2
    have e2 := eventsFor_writeDailyField accepts (dailyRef uid ds) ds n n'
      ((f n' ds).getD (.vdict [])) hkeys.1 hkeys.2.1 hkeys.2.2
    unfold eventsFor at e1 e2
    rw [e1, e2]
    cases hnn : n' == n with
    | false => simp
    | true =>
      have : n' = n := by simpa using hnn
      subst this
      rw [hf']

/-- Witness for C4: with the client whose heart-rate-variability fetch
raises, the sleep metric is still staged with its own fetched value, and its
events do not depend on the rest of the client. -/
theorem daily_metric_isolation_witness :
    Ev.setDoc (dailyRef "alice" "2026-10-12")
        (dailyBase "2026-10-12"
          ++ [("sleep", .py (sanitizeForFirestore 10
                ((fetcherHrvFails "sleep" "2026-10-12").getD (.vdict []))))]) true
      ∈ dailyWrites fetcherHrvFails acceptAll "alice" "2026-10-12"
    ∧ ∀ f' : Fetcher, f' "sleep" "2026-10-12" = fetcherHrvFails "sleep" "2026-10-12" →
        eventsFor "sleep" (dailyWrites f' acceptAll "alice" "2026-10-12")
          = eventsFor "sleep" (dailyWrites fetcherHrvFails acceptAll "alice" "2026-10-12") :=
  daily_metric_isolation fetcherHrvFails acceptAll "alice" "2026-10-12" "sleep"
    (by decide) rfl

/-! ## C6: per-user isolation of the scheduled sync -/

/-- C6 — Scheduled sync runs each connected user in isolation: every user
whose session restores successfully has the full sync-and-persist event block
in the trace (whatever happens to the other users), and every user whose
restore raises (for example an undecryptable session) only contributes a log
entry — the loop neither aborts nor rolls anything back. -/
theorem scheduled_sync_isolation {CT : Type} (L : CipherLib CT) (key : List Nat)
    (accepts : String → List (String × SVal) → Bool) (today : PyDate)
    (users : List (SyncUser CT)) :
    (∀ u ∈ users, ∀ s, restoreClient L key u.cfg = .ok s →
      ∃ pre post, garminScheduledSync L key accepts today users
        = pre ++ (doSync u.fetcher u.getActs accepts u.uid today 1
            ++ [Ev.saveSession u.uid]) ++ post)
    ∧ (∀ u ∈ users, ∀ e, restoreClient L key u.cfg = .error e →
      Ev.logErr u.uid ∈ garminScheduledSync L key accepts today users) := by
  constructor
  · intro u hu s hok
    obtain ⟨pre, post, rfl⟩ := List.append_of_mem hu
    refine ⟨pre.flatMap fun u' =>
        match restoreClient L key u'.cfg with
        | .error _ => [Ev.logErr u'.uid]
        | .ok _ => doSync u'.fetcher u'.getActs accepts u'.uid today 1
            ++ [Ev.saveSession u'.uid],
      post.flatMap fun u' =>
        match restoreClient L key u'.cfg with
        | .error _ => [Ev.logErr u'.uid]
        | .ok _ => doSync u'.fetcher u'.getActs accepts u'.uid today 1
            ++ [Ev.saveSession u'.uid], ?_⟩
    unfold garminScheduledSync
    rw [List.flatMap_append, List.flatMap_cons, hok]
    simp [List.append_assoc]
  · intro u hu e herr
    apply List.mem_flatMap.mpr
    refine ⟨u, hu, ?_⟩
    rw [herr]
    simp

/-- Witness for C6 at the three concrete users: user 2's stored session blob
fails decryption, yet users 1 and 3 both get their full sync block and user
2's failure is logged. -/
theorem scheduled_sync_isolation_witness :
    (∃ pre post, garminScheduledSync tagCipherLib skey acceptAll d0 [user1, user2, user3]
      = pre ++ (doSync user1.fetcher user1.getActs acceptAll user1.uid d0 1
          ++ [Ev.saveSession user1.uid]) ++ post)
    ∧ (∃ pre post, garminScheduledSync tagCipherLib skey acceptAll d0 [user1, user2, user3]
      = pre ++ (doSync user3.fetcher user3.getActs acceptAll user3.uid d0 1
          ++ [Ev.saveSession user3.uid]) ++ post)
    ∧ Ev.logErr user2.uid
        ∈ garminScheduledSync tagCipherLib skey acceptAll d0 [user1, user2, user3] := by
  have h := scheduled_sync_isolation tagCipherLib skey acceptAll d0 [user1, user2, user3]
  refine ⟨h.1 user1 (by simp) "s1" rfl, h.1 user3 (by simp) "s3" rfl,
    h.2 user2 (by simp) .decryptFailed rfl⟩

/-! ## C3: page-cursor backfill -/

theorem dictSet_isSdict (l : List (String × SVal)) (k : String) (v : SVal)
    (hl : ∀ kv ∈ l, isSdict kv.2 = false) (hv : isSdict v = false) :
    ∀ kv ∈ dictSet l k v, isSdict kv.2 = false := by
  intro kv hkv
  unfold dictSet at hkv
  split at hkv
  · obtain ⟨kv', hkv', he⟩ := List.mem_map.mp hkv
    by_cases h : (kv'.1 == k) = true
    · rw [if_pos h] at he
      rw [← he]
      exact hv
    · rw [if_neg h] at he
      rw [← he]
      exact hl kv' hkv'
  · rcases List.mem_append.mp hkv with h | h
    · exact hl kv h
    · have : kv = (k, v) := by simpa using h
      rw [this]
      exact hv

theorem activityFields_isSdict (src : String) (kvs : List (String × PyVal)) :
    ∀ kv ∈ activityFields src kvs, isSdict kv.2 = false := by
  unfold activityFields
  apply dictSet_isSdict
  · apply dictSet_isSdict
    · intro kv hkv
      obtain ⟨kv', hkv', he⟩ := List.mem_map.mp hkv
      rw [← he]
      rfl
    · rfl
  · rfl

theorem statusOfEv_no_sdict (path : String) (fields : List (String × SVal))
    (mg : Bool) (h : ∀ kv ∈ fields, isSdict kv.2 = false) :
    statusOfEv (Ev.setDoc path fields mg) = none := by
  simp only [statusOfEv]
  cases hf : fields.find? (·.1 == "garmin") with
  | none => rfl
  | some kv =>
    obtain ⟨k2, v2⟩ := kv
    have hns := h (k2, v2) (List.mem_of_find?_eq_some hf)
    cases v2 with
    | sdict g => simp [isSdict] at hns
    | py v => rfl
    | serverTimestamp => rfl

/-- Every event of the activity write loop is a batch commit or a merge
write of flat activity fields, so it is neither a fetch, a stats trigger,
nor any `backfillStatus` write. -/
theorem pageWrites_benign (uid src : String) (acts : List Act) :
    ∀ e ∈ pageWrites uid src acts,
      isFetch e = false ∧ isStatsEv e = false ∧ statusOfEv e = none := by
  have hshape : ∀ (act : Act) (w : Ev), stagedActivityWrite uid src act = some w →
      ∃ path fields, w = Ev.setDoc path fields true
        ∧ ∀ kv ∈ fields, isSdict kv.2 = false := by
    intro act w h
    simp only [stagedActivityWrite] at h
    split at h
    · exact absurd h (by simp)
    · split at h
      case h_1 kvs heq =>
        exact ⟨_, _, (Option.some.inj h).symm, activityFields_isSdict src kvs⟩
      case h_2 => exact absurd h (by simp)
  have hstep : ∀ (st : List Ev × Nat) (act : Act), ∀ e ∈ (pageStep uid src st act).1,
      e ∈ st.1 ∨ (isFetch e = false ∧ isStatsEv e = false ∧ statusOfEv e = none) := by
    intro st act e he
    unfold pageStep at he
    split at he
    · exact Or.inl he
    case h_2 w hw =>
      obtain ⟨path, fields, rfl, hfl⟩ := hshape act w hw
      split at he
      · rcases List.mem_append.mp he with h | h
        · rcases List.mem_append.mp h with h' | h'
          · exact Or.inl h'
          · have : e = Ev.setDoc path fields true := by simpa using h'
            rw [this]
            exact Or.inr ⟨rfl, rfl, statusOfEv_no_sdict _ _ _ hfl⟩
        · have : e = Ev.commitBatch := by simpa using h
          rw [this]
          exact Or.inr ⟨rfl, rfl, rfl⟩
      · rcases List.mem_append.mp he with h | h
        · exact Or.inl h
        · have : e = Ev.setDoc path fields true := by simpa using h
          rw [this]
          exact Or.inr ⟨rfl, rfl, statusOfEv_no_sdict _ _ _ hfl⟩
  have main : ∀ (l : List Act) (st : List Ev × Nat),
      (∀ e ∈ st.1, isFetch e = false ∧ isStatsEv e = false ∧ statusOfEv e = none) →
      ∀ e ∈ (l.foldl (pageStep uid src) st).1,
        isFetch e = false ∧ isStatsEv e = false ∧ statusOfEv e = none := by
    intro l
    induction l with
    | nil =>
      intro st h
      exact h
    | cons a l ih =>
      intro st h
      rw [List.foldl_cons]
      apply ih
      intro e he
      rcases hstep st a e he with h' | h'
      · exact h e h'
      · exact h'
  intro e he
  simp only [pageWrites] at he
  split at he
  · rcases List.mem_append.mp he with h | h
    · exact main acts ([], 0) (by simp) e h
    · have : e = Ev.commitBatch := by simpa using h
      rw [this]
      exact ⟨rfl, rfl, rfl⟩
  · exact main acts ([], 0) (by simp) e he

theorem fetchOffsets_nil_of (l : List Ev) (h : ∀ e ∈ l, isFetch e = false) :
    fetchOffsets l = [] := by
  unfold fetchOffsets
  rw [List.filterMap_eq_nil_iff]
  intro e he
  cases e <;> first
    | rfl
    | exact absurd (h _ he) (by simp [isFetch])

theorem fetchOffsets_append (a b : List Ev) :
    fetchOffsets (a ++ b) = fetchOffsets a ++ fetchOffsets b := by
  unfold fetchOffsets
  exact List.filterMap_append a b _

theorem fetchOffsets_cons_setDoc (p : String) (fields : List (String × SVal))
    (mg : Bool) (l : List Ev) :
    fetchOffsets (Ev.setDoc p fields mg :: l) = fetchOffsets l :=
  rfl

theorem fetchOffsets_cons_fetch (off : Int) (lim : Nat) (l : List Ev) :
    fetchOffsets (Ev.fetchActs off lim :: l) = off :: fetchOffsets l :=
  rfl

theorem fetchOffsets_nil : fetchOffsets [] = [] :=
  rfl

theorem filter_isFetch_nil_of (l : List Ev) (h : ∀ e ∈ l, isFetch e = false) :
    l.filter isFetch = [] := by
  rw [List.filter_eq_nil_iff]
  intro e he
  rw [h e he]
  simp

theorem statusOfEv_progress (uid : String) (t : Nat) :
    statusOfEv (Ev.setDoc ("users/" ++ uid) (progressFields t) true)
      = some "syncing" :=
  rfl

/-- Loop invariant for the backfill `while` loop: the fetched offsets are
the consecutive page offsets from the entry page, at most `fuel` pages;
every non-final fetched page held at least a full page of 100; every fetch
uses limit 100; and the loop emits neither a stats trigger nor any
`backfillStatus = complete` write. -/
theorem backfillLoop_spec (prov : Int → Nat → Option (List Act)) (uid : String) :
    ∀ (fuel : Nat) (page : Int) (total : Nat),
    ∃ m : Nat, m ≤ fuel
      ∧ fetchOffsets (backfillLoop prov uid fuel page total).1
          = (List.range m).map (fun (i : Nat) => (page + (i : Int)) * 100)
      ∧ ((backfillLoop prov uid fuel page total).1.filter isFetch).length = m
      ∧ (∀ i : Nat, i + 1 < m →
          100 ≤ ((prov ((page + (i : Int)) * 100) 100).getD []).length)
      ∧ (∀ off lim, Ev.fetchActs off lim ∈ (backfillLoop prov uid fuel page total).1 →
          lim = 100)
      ∧ (∀ e ∈ (backfillLoop prov uid fuel page total).1,
          isStatsEv e = false ∧ statusOfEv e ≠ some "complete") := by
  intro fuel
  induction fuel with
  | zero =>
    intro page total
    refine ⟨0, Nat.le_refl 0, rfl, rfl, ?_, ?_, ?_⟩
    · intro i hi
      omega
    · intro off lim h
      simp [backfillLoop] at h
    · intro e he
      simp [backfillLoop] at he
  | succ fuel ih =>
    intro page total
    by_cases hemp : ((prov (page * 100) 100).getD []).isEmpty = true
    · have hunf : backfillLoop prov uid (fuel + 1) page total
          = ([Ev.fetchActs (page * 100) 100], total, page, false) := by
        simp only [backfillLoop]
        rw [if_pos hemp]
      have hunf1 : (backfillLoop prov uid (fuel + 1) page total).1
          = [Ev.fetchActs (page * 100) 100] := by
        rw [hunf]
      refine ⟨1, by omega, ?_, ?_, ?_, ?_, ?_⟩
      · rw [hunf1, fetchOffsets_cons_fetch, fetchOffsets_nil]
        simp [List.range_succ]
      · rw [hunf1]
        simp [isFetch]
      · intro i hi
        omega
      · intro off lim h
        rw [hunf1] at h
        simp at h
        exact h.2
      · intro e he
        rw [hunf1] at he
        simp at he
        rw [he]
        exact ⟨rfl, by simp [statusOfEv]⟩
    · by_cases hshort : ((prov (page * 100) 100).getD []).length < 100
      · have hunf : backfillLoop prov uid (fuel + 1) page total
            = (Ev.fetchActs (page * 100) 100
                :: pageWrites uid "garmin_backfill" ((prov (page * 100) 100).getD [])
                ++ [Ev.setDoc ("users/" ++ uid)
                    (progressFields
                      (total + ((prov (page * 100) 100).getD []).length)) true],
              total + ((prov (page * 100) 100).getD []).length, page + 1, false) := by
          simp only [backfillLoop]
          rw [if_neg hemp, if_pos hshort]
        have hunf1 : (backfillLoop prov uid (fuel + 1) page total).1
            = Ev.fetchActs (page * 100) 100
                :: pageWrites uid "garmin_backfill" ((prov (page * 100) 100).getD [])
                ++ [Ev.setDoc ("users/" ++ uid)
                    (progressFields
                      (total + ((prov (page * 100) 100).getD []).length)) true] := by
          rw [hunf]
        have hben := pageWrites_benign uid "garmin_backfill"
          ((prov (page * 100) 100).getD [])
        refine ⟨1, by omega, ?_, ?_, ?_, ?_, ?_⟩
        · rw [hunf1, fetchOffsets_append, fetchOffsets_cons_fetch,
            fetchOffsets_nil_of _ (fun e he => (hben e he).1),
            fetchOffsets_cons_setDoc, fetchOffsets_nil]
          simp [List.range_succ]
        · rw [hunf1, List.filter_append, List.filter_cons_of_pos (by rfl),
            filter_isFetch_nil_of _ (fun e he => (hben e he).1),
            List.filter_cons_of_neg (by simp [isFetch]), List.filter_nil]
          rfl
        · intro i hi
          omega
        · intro off lim h
          rw [hunf1] at h
          rcases List.mem_append.mp h with h2 | h2
          · rcases List.mem_cons.mp h2 with h3 | h3
            · cases h3
              rfl
            · have := (hben _ h3).1
              simp [isFetch] at this
          · have h4 : Ev.fetchActs off lim = Ev.setDoc ("users/" ++ uid)
                (progressFields
                  (total + ((prov (page * 100) 100).getD []).length)) true := by
              simpa using h2
            cases h4
        · intro e he
          rw [hunf1] at he
          rcases List.mem_append.mp he with h2 | h2
          · rcases List.mem_cons.mp h2 with h3 | h3
            · rw [h3]
              exact ⟨rfl, by simp [statusOfEv]⟩
            · refine ⟨(hben e h3).2.1, ?_⟩
              rw [(hben e h3).2.2]
              simp
          · have h4 : e = Ev.setDoc ("users/" ++ uid)
                (progressFields
                  (total + ((prov (page * 100) 100).getD []).length)) true := by
              simpa using h2
            rw [h4]
            refine ⟨rfl, ?_⟩
            rw [statusOfEv_progress]
            simp
      · obtain ⟨m2, hm2le, hoff, hflt, hfull, hlim, hben2⟩ :=
          ih (page + 1) (total + ((prov (page * 100) 100).getD []).length)
        have hunf : backfillLoop prov uid (fuel + 1) page total
            = (Ev.fetchActs (page * 100) 100
                :: pageWrites uid "garmin_backfill" ((prov (page * 100) 100).getD [])
                ++ Ev.setDoc ("users/" ++ uid)
                    (progressFields
                      (total + ((prov (page * 100) 100).getD []).length)) true
                :: (backfillLoop prov uid fuel (page + 1)
                    (total + ((prov (page * 100) 100).getD []).length)).1,
              (backfillLoop prov uid fuel (page + 1)
                  (total + ((prov (page * 100) 100).getD []).length)).2.1,
              (backfillLoop prov uid fuel (page + 1)
                  (total + ((prov (page * 100) 100).getD []).length)).2.2.1,
              (backfillLoop prov uid fuel (page + 1)
                  (total + ((prov (page * 100) 100).getD []).length)).2.2.2) := by
          simp only [backfillLoop]
          rw [if_neg hemp, if_neg hshort]
        have hunf1 : (backfillLoop prov uid (fuel + 1) page total).1
            = Ev.fetchActs (page * 100) 100
                :: pageWrites uid "garmin_backfill" ((prov (page * 100) 100).getD [])
                ++ Ev.setDoc ("users/" ++ uid)
                    (progressFields
                      (total + ((prov (page * 100) 100).getD []).length)) true
                :: (backfillLoop prov uid fuel (page + 1)
                    (total + ((prov (page * 100) 100).getD []).length)).1 := by
          rw [hunf]
        have hben := pageWrites_benign uid "garmin_backfill"
          ((prov (page * 100) 100).getD [])
        refine ⟨m2 + 1, by omega, ?_, ?_, ?_, ?_, ?_⟩
        · rw [hunf1, fetchOffsets_append, fetchOffsets_cons_fetch,
            fetchOffsets_nil_of _ (fun e he => (hben e he).1),
            fetchOffsets_cons_setDoc, hoff, List.range_succ_eq_map, List.map_cons,
            List.map_map]
          rw [show ((page * 100 : Int) :: []) ++
              (List.range m2).map (fun (i : Nat) => (page + 1 + (i : Int)) * 100)
              = (page * 100)
                :: (List.range m2).map (fun (i : Nat) => (page + 1 + (i : Int)) * 100)
            from rfl]
          congr 1
          · simp
          · apply List.map_congr_left
            intro i hi
            show (page + 1 + (i : Int)) * 100 = (page + ((i + 1 : Nat) : Int)) * 100
            push_cast
            ring
        · rw [hunf1, List.filter_append, List.filter_cons_of_pos (by rfl),
            filter_isFetch_nil_of _ (fun e he => (hben e he).1),
            List.filter_cons_of_neg (by simp [isFetch])]
          rw [show (((Ev.fetchActs (page * 100) 100 :: ([] : List Ev)) ++
              List.filter isFetch (backfillLoop prov uid fuel (page + 1)
                (total + ((prov (page * 100) 100).getD []).length)).1)).length
              = (List.filter isFetch (backfillLoop prov uid fuel (page + 1)
                  (total + ((prov (page * 100) 100).getD []).length)).1).length + 1
            from by simp]
          rw [hflt]
        · intro i hi
          cases i with
          | zero =>
            simp only [Nat.cast_zero, add_zero]
            omega
          | succ j =>
            have hj : j + 1 < m2 := by omega
            have h3 := hfull j hj
            have h4 : page + ((j + 1 : Nat) : Int) = page + 1 + (j : Int) := by
              push_cast
              ring
            rw [h4]
            exact h3
        · intro off lim h
          rw [hunf1] at h
          rcases List.mem_append.mp h with h2 | h2
          · rcases List.mem_cons.mp h2 with h3 | h3
            · cases h3
              rfl
            · have := (hben _ h3).1
              simp [isFetch] at this
          · rcases List.mem_cons.mp h2 with h3 | h3
            · cases h3
            · exact hlim off lim h3
        · intro e he
          rw [hunf1] at he
          rcases List.mem_append.mp he with h2 | h2
          · rcases List.mem_cons.mp h2 with h3 | h3
            · rw [h3]
              exact ⟨rfl, by simp [statusOfEv]⟩
            · refine ⟨(hben e h3).2.1, ?_⟩
              rw [(hben e h3).2.2]
              simp
          · rcases List.mem_cons.mp h2 with h3 | h3
            · rw [h3]
              refine ⟨rfl, ?_⟩
              rw [statusOfEv_progress]
              simp
            · exact hben2 e h3

/-- C3 — One page-cursor invocation fetches activity pages with limit 100
for at most 50 pages; every page fetched before the last returned a full
page (the loop stops as soon as a page comes back short); and when the end
of data is reached (`hasMore = false`) the trace ends with exactly one stats
aggregation followed by the completion write — nothing earlier in the trace
triggers stats or marks the status complete.  For the provider returning
pages of 100, 100 and 37 activities, the invocation reports
`hasMore = false`. -/
theorem garminBackfill_page_cursor (prov : Int → Nat → Option (List Act))
    (uid : String) (data : List (String × PyVal)) :
    ((garminBackfill prov uid data).1.filter isFetch).length ≤ 50
    ∧ (∀ off lim, Ev.fetchActs off lim ∈ (garminBackfill prov uid data).1 → lim = 100)
    ∧ (∃ (start : Int) (m : Nat), m ≤ 50
        ∧ fetchOffsets (garminBackfill prov uid data).1
            = (List.range m).map (fun (i : Nat) => (start + (i : Int)) * 100)
        ∧ ∀ i : Nat, i + 1 < m →
            100 ≤ ((prov ((start + (i : Int)) * 100) 100).getD []).length)
    ∧ ((garminBackfill prov uid data).2.hasMore = false →
        ∃ pre, (garminBackfill prov uid data).1
            = pre ++ [Ev.computeStats uid, completeEv uid]
          ∧ (∀ e ∈ pre, isStatsEv e = false)
          ∧ (∀ e ∈ pre, statusOfEv e ≠ some "complete"))
    ∧ (garminBackfill prov3 "u4" []).2.hasMore = false := by
  obtain ⟨m, hm, hoff, hflt, hfull, hlim, hben⟩ :=
    backfillLoop_spec prov uid 50
      ((pyIntConv (pyGetD data "startPage" (.vint 0))).getD 0) 0
  have h1 : (garminBackfill prov uid data).1
      = Ev.setDoc ("users/" ++ uid)
          [("garmin", SVal.sdict [("backfillStatus", SVal.py (PyVal.vstr "syncing"))])]
          true
        :: (backfillLoop prov uid 50
            ((pyIntConv (pyGetD data "startPage" (.vint 0))).getD 0) 0).1
        ++ (if (backfillLoop prov uid 50
              ((pyIntConv (pyGetD data "startPage" (.vint 0))).getD 0) 0).2.2.2 then
            [Ev.saveSession uid]
          else [Ev.saveSession uid, Ev.computeStats uid, completeEv uid]) := rfl
  have h2 : (garminBackfill prov uid data).2.hasMore
      = (backfillLoop prov uid 50
          ((pyIntConv (pyGetD data "startPage" (.vint 0))).getD 0) 0).2.2.2 := rfl
  have htailFetch : (List.filter isFetch
      (if (backfillLoop prov uid 50
          ((pyIntConv (pyGetD data "startPage" (.vint 0))).getD 0) 0).2.2.2 then
        [Ev.saveSession uid]
      else [Ev.saveSession uid, Ev.computeStats uid, completeEv uid])) = [] := by
    cases (backfillLoop prov uid 50
        ((pyIntConv (pyGetD data "startPage" (.vint 0))).getD 0) 0).2.2.2 <;> rfl
  have htailOff : fetchOffsets
      (if (backfillLoop prov uid 50
          ((pyIntConv (pyGetD data "startPage" (.vint 0))).getD 0) 0).2.2.2 then
        [Ev.saveSession uid]
      else [Ev.saveSession uid, Ev.computeStats uid, completeEv uid]) = [] := by
    cases (backfillLoop prov uid 50
        ((pyIntConv (pyGetD data "startPage" (.vint 0))).getD 0) 0).2.2.2 <;> rfl
  refine ⟨?_, ?_, ?_, ?_, ?_⟩
  · rw [h1, List.filter_append, List.filter_cons_of_neg (by simp [isFetch]),
      htailFetch, List.append_nil, hflt]
    exact hm
  · intro off lim h
    rw [h1] at h
    rcases List.mem_append.mp h with h3 | h3
    · rcases List.mem_cons.mp h3 with h4 | h4
      · cases h4
      · exact hlim off lim h4
    · revert h3
      cases (backfillLoop prov uid 50
          ((pyIntConv (pyGetD data "startPage" (.vint 0))).getD 0) 0).2.2.2 <;>
        intro h3 <;> simp [completeEv] at h3
  · refine ⟨(pyIntConv (pyGetD data "startPage" (.vint 0))).getD 0, m, hm, ?_, hfull⟩
    rw [h1, fetchOffsets_append, fetchOffsets_cons_setDoc, htailOff,
      List.append_nil, hoff]
  · intro hmore
    rw [h2] at hmore
    refine ⟨Ev.setDoc ("users/" ++ uid)
        [("garmin", SVal.sdict [("backfillStatus", SVal.py (PyVal.vstr "syncing"))])]
        true
      :: (backfillLoop prov uid 50
          ((pyIntConv (pyGetD data "startPage" (.vint 0))).getD 0) 0).1
      ++ [Ev.saveSession uid], ?_, ?_, ?_⟩
    · rw [h1, hmore]
      simp
    · intro e he
      rcases List.mem_append.mp he with h3 | h3
      · rcases List.mem_cons.mp h3 with h4 | h4
        · rw [h4]
          rfl
        · exact (hben e h4).1
      · have : e = Ev.saveSession uid := by simpa using h3
        rw [this]
        rfl
    · intro e he
      rcases List.mem_append.mp he with h3 | h3
      · rcases List.mem_cons.mp h3 with h4 | h4
        · rw [h4]
          simp [statusOfEv]
        · exact (hben e h4).2
      · have : e = Ev.saveSession uid := by simpa using h3
        rw [this]
        simp [statusOfEv]
  · rfl

/-- Witness for C3 at the 100/100/37 provider: the run reaches the end of
data, so the trace ends with one stats trigger and then the completion
write, with no earlier stats trigger or completion write. -/
theorem garminBackfill_page_cursor_witness :
    ∃ pre, (garminBackfill prov3 "u4" []).1
        = pre ++ [Ev.computeStats "u4", completeEv "u4"]
      ∧ (∀ e ∈ pre, isStatsEv e = false)
      ∧ (∀ e ∈ pre, statusOfEv e ≠ some "complete") := by
  have h := garminBackfill_page_cursor prov3 "u4" []
  exact h.2.2.2.1 h.2.2.2.2

/-! ## Calendar arithmetic facts for the stats aggregator -/

set_option maxHeartbeats 2000000 in
theorem daysBeforeYear_succ (y : Nat) (hy : 1 ≤ y) :
    daysBeforeYear (y + 1) = daysBeforeYear y + (if isLeap y then 366 else 365) := by
  simp only [daysBeforeYear]
  split
  case isTrue hL =>
    have hP : (y % 4 = 0 ∧ y % 100 ≠ 0) ∨ y % 400 = 0 := by
      simpa [isLeap] using hL
    omega
  case isFalse hL =>
    have hP : ¬ ((y % 4 = 0 ∧ y % 100 ≠ 0) ∨ y % 400 = 0) := by
      simpa [isLeap] using hL
    omega

theorem daysInMonth_pos (y m : Nat) : 1 ≤ daysInMonth y m := by
  simp only [daysInMonth]
  split_ifs <;> omega

theorem daysInMonth_le (y m : Nat) : daysInMonth y m ≤ 31 := by
  simp only [daysInMonth]
  split_ifs <;> omega

theorem daysInMonth_12 (y : Nat) : daysInMonth y 12 = 31 :=
  rfl

theorem daysBeforeMonth_13 (y : Nat) :
    daysBeforeMonth y 13 = if isLeap y then 366 else 365 := by
  cases hL : isLeap y <;>
    simp [daysBeforeMonth, daysInMonth, hL]

theorem daysBeforeMonth_le (y m : Nat) (hm : m ≤ 12) :
    daysBeforeMonth y m ≤ 335 := by
  have h29 : daysInMonth y 2 ≤ 29 := by
    simp only [daysInMonth]
    split_ifs <;> omega
  interval_cases m <;>
    simp [daysBeforeMonth, daysInMonth] at * <;> omega

theorem year_ge_two_of_toOrdinal (d : PyDate) (hV : d.Valid)
    (h : 732 ≤ d.toOrdinal) : 2 ≤ d.year := by
  by_contra hc
  obtain ⟨h1, h2, h3, h4, h5⟩ := hV
  have hy1 : d.year = 1 := by omega
  have hbm := daysBeforeMonth_le d.year d.month h3
  have hdm : d.day ≤ 31 := le_trans h5 (daysInMonth_le _ _)
  have hz : daysBeforeYear 1 = 0 := rfl
  unfold PyDate.toOrdinal at h
  rw [hy1] at h
  rw [hy1] at hbm
  omega

theorem pred_spec (d : PyDate) (hV : d.Valid) (hy : 2 ≤ d.year) :
    d.pred.Valid ∧ d.pred.toOrdinal + 1 = d.toOrdinal := by
  obtain ⟨h1, h2, h3, h4, h5⟩ := hV
  unfold PyDate.pred
  by_cases hd : 1 < d.day
  · rw [if_pos hd]
    refine ⟨?_, ?_⟩
    · simp only [PyDate.Valid]
      omega
    · show daysBeforeYear d.year + daysBeforeMonth d.year d.month + (d.day - 1) + 1
        = daysBeforeYear d.year + daysBeforeMonth d.year d.month + d.day
      omega
  · rw [if_neg hd]
    by_cases hm : 1 < d.month
    · rw [if_pos hm]
      obtain ⟨k, hk⟩ : ∃ k, d.month = k + 2 := ⟨d.month - 2, by omega⟩
      have hp := daysInMonth_pos d.year (d.month - 1)
      refine ⟨?_, ?_⟩
      · simp only [PyDate.Valid]
        omega
      · show daysBeforeYear d.year + daysBeforeMonth d.year (d.month - 1)
            + daysInMonth d.year (d.month - 1) + 1
          = daysBeforeYear d.year + daysBeforeMonth d.year d.month + d.day
        rw [hk]
        rw [show k + 2 - 1 = k + 1 from by omega]
        rw [show daysBeforeMonth d.year (k + 2)
            = daysBeforeMonth d.year (k + 1) + daysInMonth d.year (k + 1) from rfl]
        omega
    · rw [if_neg hm]
      have hm1 : d.month = 1 := by omega
      have hd1 : d.day = 1 := by omega
      have h31 := daysInMonth_12 (d.year - 1)
      refine ⟨?_, ?_⟩
      · simp only [PyDate.Valid]
        omega
      · show daysBeforeYear (d.year - 1) + daysBeforeMonth (d.year - 1) 12 + 31 + 1
          = daysBeforeYear d.year + daysBeforeMonth d.year d.month + d.day
        rw [hm1, hd1]
        rw [show daysBeforeMonth d.year 1 = 0 from rfl]
        have hs := daysBeforeYear_succ (d.year - 1) (by omega)
        rw [show d.year - 1 + 1 = d.year from by omega] at hs
        have h13 := daysBeforeMonth_13 (d.year - 1)
        have hstep : daysBeforeMonth (d.year - 1) 13
            = daysBeforeMonth (d.year - 1) 12 + 31 := by
          rw [show daysBeforeMonth (d.year - 1) 13
              = daysBeforeMonth (d.year - 1) 12 + daysInMonth (d.year - 1) 12 from rfl,
            daysInMonth_12]
        cases hL : isLeap (d.year - 1) <;> rw [hL] at hs h13 <;>
          simp at hs h13 <;> omega

theorem subDays_spec (n : Nat) (d : PyDate) (hV : d.Valid)
    (h : n + 732 ≤ d.toOrdinal) :
    (subDays d n).Valid ∧ (subDays d n).toOrdinal = d.toOrdinal - n := by
  induction n generalizing d with
  | zero =>
    refine ⟨hV, ?_⟩
    show d.toOrdinal = d.toOrdinal - 0
    omega
  | succ n ih =>
    have hy : 2 ≤ d.year := year_ge_two_of_toOrdinal d hV (by omega)
    obtain ⟨hpV, hpO⟩ := pred_spec d hV hy
    show (subDays d.pred n).Valid ∧ (subDays d.pred n).toOrdinal = d.toOrdinal - (n + 1)
    obtain ⟨hV2, hO2⟩ := ih d.pred hpV (by omega)
    exact ⟨hV2, by omega⟩

theorem succ_spec (d : PyDate) (hV : d.Valid) :
    d.succ.Valid ∧ d.succ.toOrdinal = d.toOrdinal + 1 := by
  obtain ⟨h1, h2, h3, h4, h5⟩ := hV
  unfold PyDate.succ
  by_cases hd : d.day < daysInMonth d.year d.month
  · rw [if_pos hd]
    refine ⟨?_, ?_⟩
    · simp only [PyDate.Valid]
      omega
    · show daysBeforeYear d.year + daysBeforeMonth d.year d.month + (d.day + 1)
        = daysBeforeYear d.year + daysBeforeMonth d.year d.month + d.day + 1
      omega
  · rw [if_neg hd]
    by_cases hm : d.month < 12
    · rw [if_pos hm]
      obtain ⟨k, hk⟩ : ∃ k, d.month = k + 1 := ⟨d.month - 1, by omega⟩
      have hp := daysInMonth_pos d.year (d.month + 1)
      refine ⟨?_, ?_⟩
      · simp only [PyDate.Valid]
        omega
      · show daysBeforeYear d.year + daysBeforeMonth d.year (d.month + 1) + 1
          = daysBeforeYear d.year + daysBeforeMonth d.year d.month + d.day + 1
        rw [hk] at h5 hd ⊢
        rw [show daysBeforeMonth d.year (k + 1 + 1)
            = daysBeforeMonth d.year (k + 1) + daysInMonth d.year (k + 1) from rfl]
        omega
    · rw [if_neg hm]
      have hm12 : d.month = 12 := by omega
      have h31 : daysInMonth d.year d.month = 31 := by
        rw [hm12, daysInMonth_12]
      have hp : (1 : Nat) ≤ daysInMonth (d.year + 1) 1 := daysInMonth_pos _ _
      refine ⟨?_, ?_⟩
      · simp only [PyDate.Valid]
        omega
      · show daysBeforeYear (d.year + 1) + daysBeforeMonth (d.year + 1) 1 + 1
          = daysBeforeYear d.year + daysBeforeMonth d.year d.month + d.day + 1
        rw [show daysBeforeMonth (d.year + 1) 1 = 0 from rfl, hm12]
        have hs := daysBeforeYear_succ d.year h1
        have h13 := daysBeforeMonth_13 d.year
        have hstep : daysBeforeMonth d.year 13 = daysBeforeMonth d.year 12 + 31 := by
          rw [show daysBeforeMonth d.year 13
              = daysBeforeMonth d.year 12 + daysInMonth d.year 12 from rfl,
            daysInMonth_12]
        rw [hm12] at h31 h5 hd
        cases hL : isLeap d.year <;> rw [hL] at hs h13 <;> simp at hs h13 <;> omega

theorem addDays_spec (n : Nat) (d : PyDate) (hV : d.Valid) :
    (addDays d n).Valid ∧ (addDays d n).toOrdinal = d.toOrdinal + n := by
  induction n generalizing d with
  | zero => exact ⟨hV, rfl⟩
  | succ n ih =>
    obtain ⟨hsV, hsO⟩ := succ_spec d hV
    show (addDays d.succ n).Valid ∧ (addDays d.succ n).toOrdinal = d.toOrdinal + (n + 1)
    obtain ⟨hV2, hO2⟩ := ih d.succ hsV
    exact ⟨hV2, by omega⟩

theorem normMonth_spec (yr mo : Int) :
    mo ≤ 12 →
      1 ≤ (normMonth yr mo).2 ∧ (normMonth yr mo).2 ≤ 12
        ∧ (normMonth yr mo).1 * 12 + (normMonth yr mo).2 = yr * 12 + mo := by
  induction yr, mo using normMonth.induct with
  | case1 yr mo h ih =>
    intro hmo
    have hstep : normMonth yr mo = normMonth (yr - 1) (mo + 12) := by
      conv_lhs => rw [normMonth]
      rw [if_pos h]
    rw [hstep]
    obtain ⟨a, b, c⟩ := ih (by omega)
    exact ⟨a, b, by omega⟩
  | case2 yr mo h =>
    intro hmo
    have hstep : normMonth yr mo = (yr, mo) := by
      conv_lhs => rw [normMonth]
      rw [if_neg h]
    rw [hstep]
    exact ⟨by omega, hmo, rfl⟩

theorem mem_yearsSet (today : PyDate) (acts : List Act) (y : Nat) :
    y ∈ yearsSet today acts ↔ y = today.year ∨ ∃ a ∈ acts, yearOf a = some y := by
  have main : ∀ (l : List Act) (s : Finset ℕ),
      y ∈ l.foldl
        (fun s a =>
          match yearOf a with
          | some z => insert z s
          | none => s) s
      ↔ y ∈ s ∨ ∃ a ∈ l, yearOf a = some y := by
    intro l
    induction l with
    | nil =>
      intro s
      simp
    | cons a l ih =>
      intro s
      rw [List.foldl_cons]
      cases hy : yearOf a with
      | none =>
        rw [ih]
        constructor
        · rintro (h | h)
          · exact Or.inl h
          · exact Or.inr (by
              obtain ⟨b, hb, hb2⟩ := h
              exact ⟨b, by simp [hb], hb2⟩)
        · rintro (h | ⟨b, hb, hb2⟩)
          · exact Or.inl h
          · rcases List.mem_cons.mp hb with rfl | hb3
            · rw [hy] at hb2
              cases hb2
            · exact Or.inr ⟨b, hb3, hb2⟩
      | some z =>
        rw [ih]
        constructor
        · rintro (h | h)
          · rcases Finset.mem_insert.mp h with rfl | h2
            · exact Or.inr ⟨a, by simp, hy⟩
            · exact Or.inl h2
          · exact Or.inr (by
              obtain ⟨b, hb, hb2⟩ := h
              exact ⟨b, by simp [hb], hb2⟩)
        · rintro (h | ⟨b, hb, hb2⟩)
          · exact Or.inl (Finset.mem_insert_of_mem h)
          · rcases List.mem_cons.mp hb with rfl | hb3
            · rw [hy] at hb2
              cases hb2
              exact Or.inl (Finset.mem_insert_self _ _)
            · exact Or.inr ⟨b, hb3, hb2⟩
  unfold yearsSet
  rw [main]
  simp

/-- The month-end expression of the monthly rollup (`pred` of the first day of
the next month) is the last day of the month itself. -/
theorem monthEnd_eq (p : Int × Int) (h1 : 1 ≤ p.2) (h2 : p.2 ≤ 12) :
    (if p.2 = 12 then PyDate.pred ⟨p.1.toNat + 1, 1, 1⟩
     else PyDate.pred ⟨p.1.toNat, p.2.toNat + 1, 1⟩)
    = (⟨p.1.toNat, p.2.toNat, daysInMonth p.1.toNat p.2.toNat⟩ : PyDate) := by
  by_cases h12 : p.2 = 12
  · rw [if_pos h12, h12]
    show (⟨p.1.toNat + 1 - 1, 12, 31⟩ : PyDate) = ⟨p.1.toNat, 12, 31⟩
    simp only [PyDate.mk.injEq, and_true]
    omega
  · rw [if_neg h12]
    have hd1 : ¬ 1 < (⟨p.1.toNat, p.2.toNat + 1, 1⟩ : PyDate).day := by
      show ¬ 1 < 1
      omega
    have hlt : 1 < (⟨p.1.toNat, p.2.toNat + 1, 1⟩ : PyDate).month := by
      show 1 < p.2.toNat + 1
      omega
    unfold PyDate.pred
    rw [if_neg hd1, if_pos hlt]
    show (⟨p.1.toNat, p.2.toNat + 1 - 1, daysInMonth p.1.toNat (p.2.toNat + 1 - 1)⟩ : PyDate)
      = ⟨p.1.toNat, p.2.toNat, daysInMonth p.1.toNat p.2.toNat⟩
    simp only [Nat.add_sub_cancel]

set_option maxHeartbeats 1000000 in
/-- C8: `_compute_all_stats` stages, in order, exactly 52 trailing Monday-start
weekly rollups (week `w` starts `7*w` days before the Monday of the current
week and ends six days later), then 24 trailing calendar months (month `m` is
the calendar month `m` months before the current one, with year rollover, its
period running from the 1st to the last day of that month, computed as the
first day of the next month minus one day), then one rollup per calendar year
that appears as a 4-digit prefix of an activity date plus the current year, in
sorted order; every period selects activities by lexical string comparison
`periodStart <= date[:10] <= periodEnd`. -/
theorem computeAllStats_structure (today : PyDate) (acts : List Act)
    (hV : today.Valid) (hy4 : 4 ≤ today.year) :
    ∃ weekly monthly yearly : List StatWrite,
      computeAllStats today acts = weekly ++ monthly ++ yearly
      ∧ weekly.length = 52
      ∧ (∀ w : Nat, w < 52 → ∃ ws we : PyDate,
          ws.Valid ∧ we.Valid ∧ ws.weekday = 0
          ∧ ws.toOrdinal + 7 * w + today.weekday = today.toOrdinal
          ∧ we.toOrdinal = ws.toOrdinal + 6
          ∧ weekly[w]? = some
              { docId := "week_" ++ ws.isoformat, periodType := "week",
                periodStart := ws.isoformat, periodEnd := we.isoformat,
                agg := aggregateActs (filterActs acts ws.isoformat we.isoformat) })
      ∧ monthly.length = 24
      ∧ (∀ m : Nat, m < 24 → ∃ yr mo : Nat,
          1 ≤ mo ∧ mo ≤ 12
          ∧ (yr : Int) * 12 + (mo : Int)
              = (today.year : Int) * 12 + (today.month : Int) - (m : Int)
          ∧ monthly[m]? = some
              { docId := "month_" ++ (PyDate.mk yr mo 1).isoformat,
                periodType := "month",
                periodStart := (PyDate.mk yr mo 1).isoformat,
                periodEnd := (PyDate.mk yr mo (daysInMonth yr mo)).isoformat,
                agg := aggregateActs (filterActs acts
                  (PyDate.mk yr mo 1).isoformat
                  (PyDate.mk yr mo (daysInMonth yr mo)).isoformat) })
      ∧ (∃ ys : List Nat,
          ys.Sorted (· ≤ ·)
          ∧ (∀ y : Nat, y ∈ ys ↔ y = today.year ∨ ∃ a ∈ acts, yearOf a = some y)
          ∧ yearly = ys.map fun y =>
              { docId := "year_" ++ toString y, periodType := "year",
                periodStart := (PyDate.mk y 1 1).isoformat,
                periodEnd := (PyDate.mk y 12 31).isoformat,
                agg := aggregateActs (filterActs acts
                  (PyDate.mk y 1 1).isoformat
                  (PyDate.mk y 12 31).isoformat) })
      ∧ (∀ s e, filterActs acts s e
          = acts.filter fun a => strLe s (startTime10 a) && strLe (startTime10 a) e) := by
  have hF := hV
  obtain ⟨h1, h2, h3, h4, h5⟩ := hF
  have hord : 1096 ≤ today.toOrdinal := by
    have hby : 1095 ≤ daysBeforeYear today.year := by
      have hdiv : (today.year - 1) / 100 ≤ (today.year - 1) / 4 :=
        Nat.div_le_div_left (by omega) (by omega)
      unfold daysBeforeYear
      omega
    unfold PyDate.toOrdinal
    omega
  have hwd : today.weekday ≤ 6 := by
    unfold PyDate.weekday
    omega
  refine ⟨_, _, _, rfl, ?_, ?_, ?_, ?_, ?_, fun s e => rfl⟩
  · simp
  · intro w hw
    obtain ⟨hcwV, hcwO⟩ := subDays_spec today.weekday today hV (by omega)
    obtain ⟨hwsV, hwsO⟩ :=
      subDays_spec (7 * w) (subDays today today.weekday) hcwV (by omega)
    obtain ⟨hweV, hweO⟩ :=
      addDays_spec 6 (subDays (subDays today today.weekday) (7 * w)) hwsV
    refine ⟨subDays (subDays today today.weekday) (7 * w),
      addDays (subDays (subDays today today.weekday) (7 * w)) 6,
      hwsV, hweV, ?_, ?_, by omega, ?_⟩
    · show ((subDays (subDays today today.weekday) (7 * w)).toOrdinal + 6) % 7 = 0
      rw [hwsO, hcwO]
      unfold PyDate.weekday
      omega
    · rw [hwsO, hcwO]
      omega
    · simp only [List.getElem?_map, List.getElem?_range hw, Option.map_some']
  · rw [List.length_map, List.length_range]
  · intro m hm
    obtain ⟨ha, hb, hc⟩ :=
      normMonth_spec (today.year : Int) ((today.month : Int) - (m : Int))
        (by omega)
    refine ⟨(normMonth (today.year : Int) ((today.month : Int) - (m : Int))).1.toNat,
      (normMonth (today.year : Int) ((today.month : Int) - (m : Int))).2.toNat,
      by omega, by omega, by omega, ?_⟩
    simp only [List.getElem?_map, List.getElem?_range hm, Option.map_some']
    rw [monthEnd_eq (normMonth (today.year : Int) ((today.month : Int) - (m : Int)))
      ha hb]
  · refine ⟨(yearsSet today acts).sort (· ≤ ·), Finset.sort_sorted _ _, ?_, rfl⟩
    intro y
    rw [Finset.mem_sort]
    exact mem_yearsSet today acts y

/-- Witness for `computeAllStats_structure`: at the fixture date 2026-10-12
and the one-activity fixture list the hypotheses hold and the computed rollup
list splits into 52 weekly and 24 monthly documents plus the yearly tail. -/
theorem computeAllStats_structure_witness :
    d0.Valid ∧ 4 ≤ d0.year
      ∧ ∃ weekly monthly yearly : List StatWrite,
          computeAllStats d0 actsW = weekly ++ monthly ++ yearly
          ∧ weekly.length = 52 ∧ monthly.length = 24 := by
  obtain ⟨w, m, y, he, hwl, _, hml, _, _, _⟩ :=
    computeAllStats_structure d0 actsW (by decide) (by decide)
  exact ⟨by decide, by decide, w, m, y, he, hwl, hml⟩

end VitalSync
